import Mathlib

/-!
# Tensile assembly client: the HSA dispatch engine (`clients/assembly/main_hsa.cpp`)

A shallow embedding of `amd::dispatch::Buffer`, `amd::dispatch::Dispatch` and the derived
class `AsmKernelDispatch`, and of the comparison operators of `TensileDimension`
(`TensileLib/src/StructOperations.cpp`).

* `size_t` values are natural numbers below `2 ^ 64`; every `size_t` operation of the
  source is written with its reduction modulo `2 ^ 64`.
* Addresses are natural numbers and memory is a map from address to byte.
* The HSA runtime is a parameter (`Platform`): the status (and pointer) it reports for a
  call may depend on every call made before, which the state records in `calls`.
* A C++ `assert` that fails, a division by zero and a member access through a null pointer
  end the run (`Outcome.abort`).
* Single-precision arithmetic is not modelled; the few values and comparisons the program
  takes from it are parameters (`FloatModel`). Integers and pointers are stored least
  significant byte first.
-/

namespace amd.dispatch

/-! ## Outcomes -/

/-- Ways in which a member function can end without returning. -/
inductive Fault where
  /-- An `assert(...)` of the source evaluated to false. -/
  | assertion
  /-- An integer division whose divisor is zero (undefined behaviour in C++). -/
  | divisionByZero
  /-- A member access through a null pointer (undefined behaviour in C++). -/
  | nullDereference
  deriving DecidableEq, Repr

/-- Result of running a member function: it returns a value, or it never returns. -/
inductive Outcome (α : Type) where
  | ret (a : α)
  | abort (f : Fault)
  deriving DecidableEq, Repr

/-! ## The HSA runtime -/

/-- The type `hsa_status_t`: the numeric status code of a runtime call. -/
abbrev hsa_status_t := Nat

/-- The constant `HSA_STATUS_SUCCESS` of `hsa.h`. -/
def HSA_STATUS_SUCCESS : hsa_status_t := 0

/-- Calls into the runtime (and `free`) that the modelled functions make, with their arguments. -/
inductive HsaCall where
  /-- The call `hsa_memory_allocate(region, size, &p)`. -/
  | memory_allocate (region size : Nat)
  /-- The call `hsa_memory_copy(dst, src, size)`. -/
  | memory_copy (dst src size : Nat)
  /-- The call `hsa_memory_assign_agent(ptr, agent, HSA_ACCESS_PERMISSION_RW)`. -/
  | memory_assign_agent (ptr agent : Nat)
  /-- The call `free(ptr)`. -/
  | free (ptr : Nat)
  /-- The call `hsa_executable_create(HSA_PROFILE_FULL, HSA_EXECUTABLE_STATE_UNFROZEN, NULL,
  &executable)`. -/
  | executable_create
  /-- The call `hsa_executable_load_code_object(executable, agent, code_object, NULL)`. -/
  | executable_load_code_object (executable agent code_object : Nat)
  /-- The call `hsa_executable_freeze(executable, NULL)`. -/
  | executable_freeze (executable : Nat)
  /-- The call `hsa_executable_get_symbol(executable, NULL, name, agent, 0, &kernel_symbol)`. -/
  | executable_get_symbol (executable : Nat) (name : String) (agent : Nat)
  /-- The call `hsa_executable_symbol_get_info(kernel_symbol,
  HSA_EXECUTABLE_SYMBOL_INFO_KERNEL_OBJECT, &code_handle)`. -/
  | executable_symbol_get_info (kernel_symbol : Nat)
  deriving DecidableEq, Repr

/-- What the runtime answers. Every answer is a function of the calls made so far, so the
runtime may behave in any (deterministic) way. -/
structure Platform where
  /-- Status and pointer stored by `hsa_memory_allocate(region, size, &p)`. -/
  memory_allocate : List HsaCall → Nat → Nat → hsa_status_t × Nat
  /-- Status of `hsa_memory_copy(dst, src, size)`. -/
  memory_copy : List HsaCall → Nat → Nat → Nat → hsa_status_t
  /-- Status of `hsa_memory_assign_agent(ptr, agent, HSA_ACCESS_PERMISSION_RW)`. -/
  memory_assign_agent : List HsaCall → Nat → Nat → hsa_status_t
  /-- Text stored by `hsa_status_string(status, &err)`; `none` when `err` stays null. -/
  status_string : hsa_status_t → Option String
  /-- Status and handle stored by `hsa_executable_create`. -/
  executable_create : List HsaCall → hsa_status_t × Nat := fun _ => (0, 1)
  /-- Status of `hsa_executable_load_code_object(executable, agent, code_object, NULL)`. -/
  executable_load_code_object : List HsaCall → Nat → Nat → Nat → hsa_status_t :=
    fun _ _ _ _ => 0
  /-- Status of `hsa_executable_freeze(executable, NULL)`. -/
  executable_freeze : List HsaCall → Nat → hsa_status_t := fun _ _ => 0
  /-- Status and symbol stored by `hsa_executable_get_symbol(executable, NULL, name, agent,
  0, &kernel_symbol)`. -/
  executable_get_symbol : List HsaCall → Nat → String → Nat → hsa_status_t × Nat :=
    fun _ _ _ _ => (0, 1)
  /-- Status and code handle stored by `hsa_executable_symbol_get_info(kernel_symbol,
  HSA_EXECUTABLE_SYMBOL_INFO_KERNEL_OBJECT, &code_handle)`. -/
  executable_symbol_get_info : List HsaCall → Nat → hsa_status_t × Nat := fun _ _ => (0, 1)

/-! ## Data model -/

/-- The class `Buffer`: a size and two addresses. -/
structure Buffer where
  size : Nat
  local_ptr : Nat
  system_ptr : Nat
  deriving DecidableEq, Repr

/-- The constructor `Buffer(size_, local_ptr_, system_ptr_)`. -/
def Buffer.mk3 (size_ local_ptr_ system_ptr_ : Nat) : Buffer :=
  { size := size_, local_ptr := local_ptr_, system_ptr := system_ptr_ }

/-- The constructor `Buffer(size_, system_ptr_)`: both addresses are `system_ptr_`. -/
def Buffer.mk2 (size_ system_ptr_ : Nat) : Buffer :=
  { size := size_, local_ptr := system_ptr_, system_ptr := system_ptr_ }

/-- The accessor `Buffer::LocalPtr`. -/
def Buffer.LocalPtr (b : Buffer) : Nat := b.local_ptr

/-- The accessor `Buffer::SystemPtr`. -/
def Buffer.SystemPtr (b : Buffer) : Nat := b.system_ptr

/-- The method `Buffer::IsLocal`: `local_ptr != system_ptr`. -/
def Buffer.IsLocal (b : Buffer) : Bool := b.local_ptr != b.system_ptr

/-- The accessor `Buffer::Size`. -/
def Buffer.Size (b : Buffer) : Nat := b.size

/-- The fields of `hsa_kernel_dispatch_packet_t` that the source reads or writes. The first
32-bit word of the packet is `header` (low half) and `setup` (high half). -/
structure hsa_kernel_dispatch_packet_t where
  header : Nat := 0
  setup : Nat := 0
  workgroup_size_x : Nat := 0
  workgroup_size_y : Nat := 0
  workgroup_size_z : Nat := 0
  grid_size_x : Nat := 0
  grid_size_y : Nat := 0
  grid_size_z : Nat := 0
  private_segment_size : Nat := 0
  group_segment_size : Nat := 0
  kernel_object : Nat := 0
  kernarg_address : Nat := 0
  completion_signal : Nat := 0
  deriving DecidableEq, Repr

/-- The members of `hsa_queue_t` that the source uses: the capacity `size` (a `uint32_t`),
the packets of the ring at `base_address`, indexed by slot, and, behind the queue handle,
the 64-bit write index and the value last stored to `doorbell_signal`. -/
structure hsa_queue_t where
  size : Nat := 0
  base_address : Nat → hsa_kernel_dispatch_packet_t := fun _ => {}
  write_index : Nat := 0
  doorbell_signal : Nat := 0

/-- The two stores by which `RunDispatch` hands the packet to the device. -/
inductive PacketStore where
  /-- The atomic store of the 32-bit word `header32` to the start of the packet. -/
  | header32 (value : Nat)
  /-- The call `hsa_signal_store_relaxed(queue->doorbell_signal, value)`. -/
  | doorbell (value : Nat)
  deriving DecidableEq, Repr

/-- The seven phases that `Dispatch::Run` chains with `&&`. -/
inductive Phase where
  | Init | InitDispatch | SetupExecutable | Setup | RunDispatch | Wait | Verify
  deriving DecidableEq, Repr

/-- The class `Dispatch` together with the part of the process it acts on.

The first group of fields are data members of the class (handles are the `handle` member
of the HSA struct; `aql` is the packet that the member `aql` points to; `output` is the
text held by the `std::ostringstream`). The second group is the environment: byte memory,
the text written to `std::cout`, and three records kept for stating properties: the
runtime calls made so far, every `memcpy` executed (destination address and length), and
every phase that `Run` invoked with the way it ended. The third group holds the queue that
the member `queue` points to, the slot of its ring that `aql` points to, the members
`code_object` and `executable`, the record of the stores that publish the packet, and the
members `c`, `a`, `b` of the derived class `AsmKernelDispatch` (`none` is a null pointer),
which live here so that its `Setup` and `Verify` can be phases of `Run`. -/
structure Dispatch where
  agent : Nat := 0
  cpu_agent : Nat := 0
  signal : Nat := 0
  system_region : Nat := 0
  kernarg_region : Nat := 0
  local_region : Nat := 0
  aql : hsa_kernel_dispatch_packet_t := {}
  packet_index : Nat := 0
  kernarg : Nat := 0
  kernarg_offset : Nat := 0
  output : String := ""
  mem : Nat → Nat := fun _ => 0
  cout : String := ""
  calls : List HsaCall := []
  memcpys : List (Nat × Nat) := []
  invoked : List (Phase × Outcome Bool) := []
  queue : hsa_queue_t := {}
  aql_slot : Nat := 0
  code_object : Nat := 0
  executable : Nat := 0
  stores : List PacketStore := []
  c : Option Buffer := none
  a : Option Buffer := none
  b : Option Buffer := none

/-- Number of values of `size_t` (64-bit). -/
def SIZE_MOD : Nat := 2 ^ 64

/-- The effect of `memcpy(dest, src, n)` on memory, where `src i` is byte `i` of the source
object: the `n` bytes from `dest` on are replaced, every other byte is kept. -/
def memcpy (mem : Nat → Nat) (dest : Nat) (src : Nat → Nat) (n : Nat) : Nat → Nat :=
  fun a => if dest ≤ a ∧ a < dest + n then src (a - dest) else mem a

/-! ## Runtime calls -/

/-- The call `hsa_memory_allocate(region, size, &p)`: the runtime reports a status and a
pointer, and the call is recorded. -/
def hsa_memory_allocate (P : Platform) (region size : Nat) (d : Dispatch) :
    hsa_status_t × Nat × Dispatch :=
  ((P.memory_allocate d.calls region size).1, (P.memory_allocate d.calls region size).2,
    { d with calls := d.calls ++ [HsaCall.memory_allocate region size] })

/-- The call `hsa_memory_copy(dst, src, size)`: when the runtime reports success the `size`
bytes at `src` have been copied to `dst`; otherwise memory is left as it was. The call is
recorded either way. -/
def hsa_memory_copy (P : Platform) (dst src size : Nat) (d : Dispatch) :
    hsa_status_t × Dispatch :=
  let status := P.memory_copy d.calls dst src size
  (status, { d with
    calls := d.calls ++ [HsaCall.memory_copy dst src size]
    mem := if status = HSA_STATUS_SUCCESS then
        memcpy d.mem dst (fun i => d.mem (src + i)) size
      else d.mem })

/-- The call `hsa_memory_assign_agent(ptr, agent, HSA_ACCESS_PERMISSION_RW)`: a change of
access permission, which leaves the bytes of memory alone. The call is recorded. -/
def hsa_memory_assign_agent (P : Platform) (ptr agent : Nat) (d : Dispatch) :
    hsa_status_t × Dispatch :=
  (P.memory_assign_agent d.calls ptr agent,
    { d with calls := d.calls ++ [HsaCall.memory_assign_agent ptr agent] })

/-- The call `hsa_executable_create(..., &executable)`: status and handle, call recorded. -/
def hsa_executable_create (P : Platform) (d : Dispatch) : hsa_status_t × Nat × Dispatch :=
  ((P.executable_create d.calls).1, (P.executable_create d.calls).2,
    { d with calls := d.calls ++ [HsaCall.executable_create] })

/-- The call `hsa_executable_load_code_object(executable, agent, code_object, NULL)`. -/
def hsa_executable_load_code_object (P : Platform) (executable agent code_object : Nat)
    (d : Dispatch) : hsa_status_t × Dispatch :=
  (P.executable_load_code_object d.calls executable agent code_object,
    { d with calls := d.calls ++
      [HsaCall.executable_load_code_object executable agent code_object] })

/-- The call `hsa_executable_freeze(executable, NULL)`. -/
def hsa_executable_freeze (P : Platform) (executable : Nat) (d : Dispatch) :
    hsa_status_t × Dispatch :=
  (P.executable_freeze d.calls executable,
    { d with calls := d.calls ++ [HsaCall.executable_freeze executable] })

/-- The call `hsa_executable_get_symbol(executable, NULL, name, agent, 0, &kernel_symbol)`:
status and symbol, call recorded. -/
def hsa_executable_get_symbol (P : Platform) (executable : Nat) (name : String) (agent : Nat)
    (d : Dispatch) : hsa_status_t × Nat × Dispatch :=
  ((P.executable_get_symbol d.calls executable name agent).1,
    (P.executable_get_symbol d.calls executable name agent).2,
    { d with calls := d.calls ++ [HsaCall.executable_get_symbol executable name agent] })

/-- The call `hsa_executable_symbol_get_info(kernel_symbol,
HSA_EXECUTABLE_SYMBOL_INFO_KERNEL_OBJECT, &code_handle)`: status and code handle, call
recorded. -/
def hsa_executable_symbol_get_info (P : Platform) (kernel_symbol : Nat) (d : Dispatch) :
    hsa_status_t × Nat × Dispatch :=
  ((P.executable_symbol_get_info d.calls kernel_symbol).1,
    (P.executable_symbol_get_info d.calls kernel_symbol).2,
    { d with calls := d.calls ++ [HsaCall.executable_symbol_get_info kernel_symbol] })

/-! ## Error reporting -/

/-- The method `Dispatch::HsaError`: append `msg: <text>` and a newline to `output`,
return false. The text is looked up only for a status other than success. -/
def Dispatch.HsaError (P : Platform) (msg : String) (status : hsa_status_t) (d : Dispatch) :
    Bool × Dispatch :=
  let err : Option String :=
    if status ≠ HSA_STATUS_SUCCESS then P.status_string status else none
  (false, { d with output := d.output ++ msg ++ ": " ++ err.getD "unknown error" ++ "\n" })

/-! ## Kernel-argument packing -/

/-- The method `Dispatch::AllocateKernarg(uint32_t size)`. On success the runtime stores
the pointer in `kernarg`; the packet gets that address and the cursor is reset. -/
def Dispatch.AllocateKernarg (P : Platform) (size : Nat) (d : Dispatch) : Bool × Dispatch :=
  match hsa_memory_allocate P d.kernarg_region size d with
  | (status, p, d1) =>
    if status ≠ HSA_STATUS_SUCCESS then
      Dispatch.HsaError P "Failed to allocate kernarg" status d1
    else
      (true, { d1 with
        kernarg := p
        aql := { d1.aql with kernarg_address := p }
        kernarg_offset := 0 })

/-- The value of `((kernarg_offset + align - 1) / align) * align` in `size_t` arithmetic,
for a nonzero `align`. -/
def alignUp (kernarg_offset align : Nat) : Nat :=
  (((kernarg_offset + align + SIZE_MOD - 1) % SIZE_MOD) / align) * align % SIZE_MOD

/-- The method `Dispatch::KernargRaw(ptr, size, align)`, where `ptr i` is byte `i` of the
object that `ptr` points to. The assertion is `(align & (align - 1)) == 0` with `align - 1`
computed in `size_t`. -/
def Dispatch.KernargRaw (ptr : Nat → Nat) (size align : Nat) (d : Dispatch) :
    Outcome Unit × Dispatch :=
  if (align &&& ((align + SIZE_MOD - 1) % SIZE_MOD)) ≠ 0 then
    (.abort .assertion, d)
  else if align = 0 then
    (.abort .divisionByZero, d)
  else
    let kernarg_offset := alignUp d.kernarg_offset align
    (.ret (), { d with
      kernarg_offset := (kernarg_offset + size) % SIZE_MOD
      mem := memcpy d.mem (d.kernarg + kernarg_offset) ptr size
      memcpys := d.memcpys ++ [(d.kernarg + kernarg_offset, size)] })

/-- A run of consecutive `KernargRaw` calls, each given as `(ptr, size, align)`; it stops at
the first call that does not return. -/
def Dispatch.KernargRawSeq :
    List ((Nat → Nat) × Nat × Nat) → Dispatch → Outcome Unit × Dispatch
  | [], d => (.ret (), d)
  | (ptr, size, align) :: rest, d =>
    match Dispatch.KernargRaw ptr size align d with
    | (.ret _, d') => Dispatch.KernargRawSeq rest d'
    | (.abort f, d') => (.abort f, d')

/-! ## The command queue -/

/-- The enumerators of `hsa.h` from which `RunDispatch` builds the header word. The header is
not part of the repository, so they are parameters. -/
structure PacketEncoding where
  HSA_PACKET_TYPE_KERNEL_DISPATCH : Nat
  HSA_PACKET_HEADER_TYPE : Nat
  HSA_PACKET_HEADER_BARRIER : Nat
  HSA_PACKET_HEADER_ACQUIRE_FENCE_SCOPE : Nat
  HSA_PACKET_HEADER_RELEASE_FENCE_SCOPE : Nat
  HSA_FENCE_SCOPE_SYSTEM : Nat
  HSA_KERNEL_DISPATCH_PACKET_SETUP_DIMENSIONS : Nat

/-- The call `hsa_queue_add_write_index_relaxed(queue, value)`: the write index of the queue
is increased by `value` (a 64-bit addition) and the index it had before is returned. -/
def hsa_queue_add_write_index_relaxed (queue : hsa_queue_t) (value : Nat) :
    Nat × hsa_queue_t :=
  (queue.write_index, { queue with write_index := (queue.write_index + value) % 2 ^ 64 })

/-- The method `Dispatch::InitDispatch`. `queue_mask` is `queue->size - 1` in `uint32_t`.
The `memset` clears every byte of the packet after the first four, so `header` and `setup`
keep what the slot held and every other field is zero before the assignments. -/
def Dispatch.InitDispatch (d : Dispatch) : Outcome Bool × Dispatch :=
  let queue_mask := (d.queue.size + 2 ^ 32 - 1) % 2 ^ 32
  match hsa_queue_add_write_index_relaxed d.queue 1 with
  | (packet_index, queue1) =>
    let slot := packet_index &&& queue_mask
    (.ret true, { d with
      queue := queue1
      packet_index := packet_index
      aql_slot := slot
      aql :=
        { header := (d.queue.base_address slot).header
          setup := (d.queue.base_address slot).setup
          workgroup_size_x := 1
          workgroup_size_y := 1
          workgroup_size_z := 1
          grid_size_x := 1
          grid_size_y := 1
          grid_size_z := 1
          private_segment_size := 0
          group_segment_size := 0
          kernel_object := 0
          kernarg_address := 0
          completion_signal := d.signal } })

/-- The method `Dispatch::RunDispatch`: two lines on `std::cout`, then the header word is
stored to the first four bytes of the packet (`header` in the low half, `setup` in the high
half) and the packet index is stored to the doorbell. -/
def Dispatch.RunDispatch (K : PacketEncoding) (d : Dispatch) : Outcome Bool × Dispatch :=
  let wg := "wg=" ++ toString d.aql.workgroup_size_x ++ ", " ++
    toString d.aql.workgroup_size_y ++ ", " ++ toString d.aql.workgroup_size_z ++ "\n"
  let d1 := { d with cout := d.cout ++ wg }
  let gr := "gr=" ++ toString d1.aql.grid_size_x ++ ", " ++
    toString d1.aql.grid_size_y ++ ", " ++ toString d1.aql.grid_size_z ++ "\n"
  let d2 := { d1 with cout := d1.cout ++ gr }
  let header :=
    ((K.HSA_PACKET_TYPE_KERNEL_DISPATCH <<< K.HSA_PACKET_HEADER_TYPE) |||
      (1 <<< K.HSA_PACKET_HEADER_BARRIER) |||
      (K.HSA_FENCE_SCOPE_SYSTEM <<< K.HSA_PACKET_HEADER_ACQUIRE_FENCE_SCOPE) |||
      (K.HSA_FENCE_SCOPE_SYSTEM <<< K.HSA_PACKET_HEADER_RELEASE_FENCE_SCOPE)) % 2 ^ 16
  let setup := (2 <<< K.HSA_KERNEL_DISPATCH_PACKET_SETUP_DIMENSIONS) % 2 ^ 16
  let header32 := (header ||| (setup <<< 16)) % 2 ^ 32
  let d3 := { d2 with
    aql := { d2.aql with header := header32 % 2 ^ 16, setup := header32 / 2 ^ 16 }
    stores := d2.stores ++ [PacketStore.header32 header32] }
  let d4 := { d3 with
    queue := { d3.queue with doorbell_signal := d3.packet_index }
    stores := d3.stores ++ [PacketStore.doorbell d3.packet_index] }
  (.ret true, d4)

/-- The method `Dispatch::SetWorkgroupSize(uint16_t sizeX, uint16_t sizeY, uint16_t sizeZ)`. -/
def Dispatch.SetWorkgroupSize (sizeX sizeY sizeZ : Nat) (d : Dispatch) : Dispatch :=
  { d with aql := { d.aql with
      workgroup_size_x := sizeX, workgroup_size_y := sizeY, workgroup_size_z := sizeZ } }

/-- The method `Dispatch::SetGridSize(uint32_t sizeX, uint32_t sizeY, uint32_t sizeZ)`. -/
def Dispatch.SetGridSize (sizeX sizeY sizeZ : Nat) (d : Dispatch) : Dispatch :=
  { d with aql := { d.aql with
      grid_size_x := sizeX, grid_size_y := sizeY, grid_size_z := sizeZ } }

/-! ## Waiting for completion -/

/-- The global `uint64_t TIMEOUT = 120`. -/
def TIMEOUT : Nat := 120

/-- The `do ... while (result != 0)` loop of `Dispatch::Wait`, from iteration `j` on.
`results j` is the value that the `j`-th call of `hsa_signal_wait_acquire` returns,
`clock 0` is the reading `beg` and `clock (j + 1)` the reading taken in iteration `j`;
`CLOCKS_PER_SEC` is the macro of `<ctime>`. `clock_t` values are integers, and the
subtraction is exact. Each iteration uses one unit of `fuel`; `none` means the fuel ran out
before the loop ended. -/
def Dispatch.Wait.loop (CLOCKS_PER_SEC : Int) (results clock : Nat → Int) :
    Nat → Nat → Dispatch → Option (Bool × Dispatch)
  | 0, _, _ => none
  | fuel + 1, j, d =>
    let result := results j
    let clocks := clock (j + 1) - clock 0
    if clocks > (TIMEOUT : Int) * CLOCKS_PER_SEC then
      some (false, { d with output := d.output ++
        "Kernel execution timed out, elapsed time: " ++ toString clocks ++ "\n" })
    else if result ≠ 0 then
      Dispatch.Wait.loop CLOCKS_PER_SEC results clock fuel (j + 1) d
    else
      some (true, d)

/-- The method `Dispatch::Wait`. -/
def Dispatch.Wait (CLOCKS_PER_SEC : Int) (results clock : Nat → Int) (fuel : Nat)
    (d : Dispatch) : Option (Bool × Dispatch) :=
  Dispatch.Wait.loop CLOCKS_PER_SEC results clock fuel 0 d

/-! ## Buffers and staging -/

/-- The method `Dispatch::AllocateLocalMemory`: asserts that a local region exists, then
allocates in it; returns the null pointer (after logging) when the runtime reports an error. -/
def Dispatch.AllocateLocalMemory (P : Platform) (size : Nat) (d : Dispatch) :
    Outcome Nat × Dispatch :=
  if d.local_region = 0 then
    (.abort .assertion, d)
  else
    match hsa_memory_allocate P d.local_region size d with
    | (status, p, d1) =>
      if status ≠ HSA_STATUS_SUCCESS then
        (.ret 0, (Dispatch.HsaError P "hsa_memory_allocate(local_region) failed" status d1).2)
      else
        (.ret p, d1)

/-- The method `Dispatch::AllocateSystemMemory`: allocates in the system region; returns the
null pointer (after logging) when the runtime reports an error. -/
def Dispatch.AllocateSystemMemory (P : Platform) (size : Nat) (d : Dispatch) :
    Nat × Dispatch :=
  match hsa_memory_allocate P d.system_region size d with
  | (status, p, d1) =>
    if status ≠ HSA_STATUS_SUCCESS then
      (0, (Dispatch.HsaError P "hsa_memory_allocate(system_region) failed" status d1).2)
    else
      (p, d1)

/-- The method `Dispatch::CopyToLocal(dest, src, size)`. -/
def Dispatch.CopyToLocal (P : Platform) (dest src size : Nat) (d : Dispatch) :
    Bool × Dispatch :=
  match hsa_memory_copy P dest src size d with
  | (status, d1) =>
    if status ≠ HSA_STATUS_SUCCESS then
      (false, (Dispatch.HsaError P "hsa_memory_copy failed" status d1).2)
    else
      (true, d1)

/-- The method `Dispatch::CopyFromLocal(dest, src, size)`: assign `src` to the CPU agent,
then copy. -/
def Dispatch.CopyFromLocal (P : Platform) (dest src size : Nat) (d : Dispatch) :
    Bool × Dispatch :=
  match hsa_memory_assign_agent P src d.cpu_agent d with
  | (status, d1) =>
    if status ≠ HSA_STATUS_SUCCESS then
      (false, (Dispatch.HsaError P "hsa_memory_assign_agent failed" status d1).2)
    else
      match hsa_memory_copy P dest src size d1 with
      | (status2, d2) =>
        if status2 ≠ HSA_STATUS_SUCCESS then
          (false, (Dispatch.HsaError P "hsa_memory_copy failed" status2 d2).2)
        else
          (true, d2)

/-- The method `Dispatch::AllocateBuffer(size)`; `none` is the null pointer it returns when
an allocation failed. -/
def Dispatch.AllocateBuffer (P : Platform) (size : Nat) (d : Dispatch) :
    Outcome (Option Buffer) × Dispatch :=
  if d.local_region ≠ 0 then
    match Dispatch.AllocateSystemMemory P size d with
    | (system_ptr, d1) =>
      if system_ptr = 0 then (.ret none, d1)
      else
        match Dispatch.AllocateLocalMemory P size d1 with
        | (.abort f, d2) => (.abort f, d2)
        | (.ret local_ptr, d2) =>
          if local_ptr = 0 then
            (.ret none, { d2 with calls := d2.calls ++ [HsaCall.free system_ptr] })
          else
            (.ret (some (Buffer.mk3 size local_ptr system_ptr)), d2)
  else
    match Dispatch.AllocateSystemMemory P size d with
    | (system_ptr, d1) =>
      if system_ptr = 0 then (.ret none, d1)
      else (.ret (some (Buffer.mk2 size system_ptr)), d1)

/-- The method `Dispatch::CopyTo(buffer)`. -/
def Dispatch.CopyTo (P : Platform) (buffer : Buffer) (d : Dispatch) : Bool × Dispatch :=
  if buffer.IsLocal then
    Dispatch.CopyToLocal P buffer.LocalPtr buffer.SystemPtr buffer.Size d
  else
    (true, d)

/-- The method `Dispatch::CopyFrom(buffer)`. -/
def Dispatch.CopyFrom (P : Platform) (buffer : Buffer) (d : Dispatch) : Bool × Dispatch :=
  if buffer.IsLocal then
    Dispatch.CopyFromLocal P buffer.SystemPtr buffer.LocalPtr buffer.Size d
  else
    (true, d)

/-! ## The lifecycle -/

/-- The seven member functions that `Run` calls. `Init`, `InitDispatch`, `RunDispatch` and
`Wait` are fixed by the class, `SetupExecutable`, `Setup` and `Verify` are virtual; `Run`
treats all of them alike, so they are parameters here. -/
structure Phases where
  Init : Dispatch → Outcome Bool × Dispatch
  InitDispatch : Dispatch → Outcome Bool × Dispatch
  SetupExecutable : Dispatch → Outcome Bool × Dispatch
  Setup : Dispatch → Outcome Bool × Dispatch
  RunDispatch : Dispatch → Outcome Bool × Dispatch
  Wait : Dispatch → Outcome Bool × Dispatch
  Verify : Dispatch → Outcome Bool × Dispatch

/-- A call of phase `p`: run its body and record, after what was recorded before the call,
that `p` was invoked and how it ended. -/
def enter (p : Phase) (f : Dispatch → Outcome Bool × Dispatch) (d : Dispatch) :
    Outcome Bool × Dispatch :=
  match f d with
  | (r, d') => (r, { d' with invoked := d.invoked ++ [(p, r)] })

/-- The C++ expression `a && b` on two calls: `b` is evaluated only if `a` returned true. -/
def andAlso (a b : Dispatch → Outcome Bool × Dispatch) (d : Dispatch) :
    Outcome Bool × Dispatch :=
  match a d with
  | (.ret true, d') => b d'
  | (.ret false, d') => (.ret false, d')
  | (.abort f, d') => (.abort f, d')

/-- The method `Dispatch::Run`: the chain of seven phases, then the log (if not empty) and
the verdict line on `std::cout`. -/
def Dispatch.Run (ph : Phases) (d : Dispatch) : Outcome Bool × Dispatch :=
  match
    andAlso (andAlso (andAlso (andAlso (andAlso (andAlso
      (enter .Init ph.Init)
      (enter .InitDispatch ph.InitDispatch))
      (enter .SetupExecutable ph.SetupExecutable))
      (enter .Setup ph.Setup))
      (enter .RunDispatch ph.RunDispatch))
      (enter .Wait ph.Wait))
      (enter .Verify ph.Verify) d with
  | (.abort f, d') => (.abort f, d')
  | (.ret res, d') =>
    let out := d'.output
    let d1 := if out ≠ "" then { d' with cout := d'.cout ++ out ++ "\n" } else d'
    (.ret res, { d1 with cout := d1.cout ++ (if res then "Success" else "Failed") ++ "\n" })

/-- The method `Dispatch::RunMain`: `Run() ? 0 : 1`. -/
def Dispatch.RunMain (ph : Phases) (d : Dispatch) : Outcome Int × Dispatch :=
  match Dispatch.Run ph d with
  | (.ret res, d') => (.ret (if res then 0 else 1), d')
  | (.abort f, d') => (.abort f, d')

/-- A chain `f₁ && f₂ && ... && fₙ` of recorded phase calls, nested to the right. -/
def chainOf : List (Phase × (Dispatch → Outcome Bool × Dispatch)) →
    Dispatch → Outcome Bool × Dispatch
  | [] => fun d => (.ret true, d)
  | s :: rest => andAlso (enter s.1 s.2) (chainOf rest)

/-- The records that a short-circuit chain over the phases `ps` can leave, with its result
`r`: the phases are taken in order, and the first one that does not return true is the last
one recorded and gives the result. -/
def TraceOK : List Phase → List (Phase × Outcome Bool) → Outcome Bool → Prop
  | [], tr, r => tr = [] ∧ r = .ret true
  | p :: ps, tr, r =>
    (tr = [(p, r)] ∧ r ≠ .ret true) ∨ ∃ tr', tr = (p, .ret true) :: tr' ∧ TraceOK ps tr' r

/-- The seven phases in the order in which `Run` names them. -/
def allPhases : List Phase :=
  [.Init, .InitDispatch, .SetupExecutable, .Setup, .RunDispatch, .Wait, .Verify]

/-- The seven calls of `Run`, each phase with its body. -/
def Phases.steps (ph : Phases) : List (Phase × (Dispatch → Outcome Bool × Dispatch)) :=
  [(.Init, ph.Init), (.InitDispatch, ph.InitDispatch), (.SetupExecutable, ph.SetupExecutable),
    (.Setup, ph.Setup), (.RunDispatch, ph.RunDispatch), (.Wait, ph.Wait), (.Verify, ph.Verify)]

/-! ## Loading the kernel -/

/-- The method `Dispatch::SetupCodeObject` of the base class: it returns false. -/
def Dispatch.SetupCodeObject (d : Dispatch) : Outcome Bool × Dispatch := (.ret false, d)

/-- The method `Dispatch::Setup` of the base class: it returns true. -/
def Dispatch.Setup (d : Dispatch) : Outcome Bool × Dispatch := (.ret true, d)

/-- The method `Dispatch::Verify` of the base class: it returns true. -/
def Dispatch.Verify (d : Dispatch) : Outcome Bool × Dispatch := (.ret true, d)

/-- The name that `SetupExecutable` passes to `hsa_executable_get_symbol`. -/
def kernelSymbolName : String :=
  "ZN12_GLOBAL__N_113mad2d_functor19__cxxamp_trampolineEiiiiiiPfPKfS3_ffi"

/-- The method `Dispatch::SetupExecutable`, with the virtual `SetupCodeObject` it calls first
given as `SetupCodeObject`. Each runtime call that reports an error ends it through
`HsaError`; after the last one the code handle is stored in the packet. -/
def Dispatch.SetupExecutable (P : Platform)
    (SetupCodeObject : Dispatch → Outcome Bool × Dispatch) (d : Dispatch) :
    Outcome Bool × Dispatch :=
  match SetupCodeObject d with
  | (.abort f, d0) => (.abort f, d0)
  | (.ret false, d0) => (.ret false, d0)
  | (.ret true, d0) =>
    match hsa_executable_create P d0 with
    | (status1, executable, d1) =>
      if status1 ≠ HSA_STATUS_SUCCESS then
        (.ret false, (Dispatch.HsaError P "hsa_executable_create failed" status1 d1).2)
      else
        match hsa_executable_load_code_object P executable d1.agent d1.code_object
          { d1 with executable := executable } with
        | (status2, d2) =>
          if status2 ≠ HSA_STATUS_SUCCESS then
            (.ret false,
              (Dispatch.HsaError P "hsa_executable_load_code_object failed" status2 d2).2)
          else
            match hsa_executable_freeze P d2.executable d2 with
            | (status3, d3) =>
              if status3 ≠ HSA_STATUS_SUCCESS then
                (.ret false,
                  (Dispatch.HsaError P "hsa_executable_freeze failed" status3 d3).2)
              else
                match hsa_executable_get_symbol P d3.executable kernelSymbolName d3.agent d3
                  with
                | (status4, kernel_symbol, d4) =>
                  if status4 ≠ HSA_STATUS_SUCCESS then
                    (.ret false,
                      (Dispatch.HsaError P "hsa_executable_get_symbol failed" status4 d4).2)
                  else
                    match hsa_executable_symbol_get_info P kernel_symbol d4 with
                    | (status5, code_handle, d5) =>
                      if status5 ≠ HSA_STATUS_SUCCESS then
                        (.ret false, (Dispatch.HsaError P
                          "hsa_executable_symbol_get_info failed" status5 d5).2)
                      else
                        (.ret true,
                          { d5 with aql := { d5.aql with kernel_object := code_handle } })

/-- The phases of a `Dispatch` object as `Run` calls them: `InitDispatch`, `SetupExecutable`
and `RunDispatch` as defined above; the virtual functions `SetupCodeObject`, `Setup` and
`Verify` as supplied by the derived class; and `Init` (device discovery) and `Wait` as
given functions on the state. -/
def Dispatch.lifecycle (P : Platform) (K : PacketEncoding)
    (Init SetupCodeObject Setup Wait Verify : Dispatch → Outcome Bool × Dispatch) : Phases where
  Init := Init
  InitDispatch := Dispatch.InitDispatch
  SetupExecutable := Dispatch.SetupExecutable P SetupCodeObject
  Setup := Setup
  RunDispatch := Dispatch.RunDispatch K
  Wait := Wait
  Verify := Verify

/-- The first four phase calls of `Run`: Init, InitDispatch, SetupExecutable, Setup. When
they return true, the next call of `Run` is `RunDispatch`, on the state they leave. -/
def Dispatch.beforeRunDispatch (ph : Phases) (d : Dispatch) : Outcome Bool × Dispatch :=
  chainOf (ph.steps.take 4) d

/-- A discovery phase that succeeds: it leaves an agent, a signal, the three regions and a
queue of 8 slots. -/
def sampleInit (d : Dispatch) : Outcome Bool × Dispatch :=
  (.ret true, { d with
    agent := 1, cpu_agent := 2, signal := 7, system_region := 3, kernarg_region := 4,
    local_region := 5, queue := { size := 8 } })

/-- A `SetupCodeObject` that succeeds and stores a code object handle. -/
def sampleSetupCodeObject (d : Dispatch) : Outcome Bool × Dispatch :=
  (.ret true, { d with code_object := 9 })

/-- A wait phase that returns true at once. -/
def sampleWait (d : Dispatch) : Outcome Bool × Dispatch := (.ret true, d)

/-! ## The derived class `AsmKernelDispatch` -/

/-- What the program needs from single-precision arithmetic, which is not modelled: the
four bytes of the `float` values it stores and packs, the result of its comparison, and the
text of the values it prints. -/
structure FloatModel where
  /-- Bytes of `vC*i`, the value stored to `c->Data<float>(i)`. -/
  vC_times : Nat → Nat → Nat
  /-- Bytes of `vA*i`, the value stored to `a->Data<float>(i)`. -/
  vA_times : Nat → Nat → Nat
  /-- Bytes of `vB*i`, the value stored to `b->Data<float>(i)`. -/
  vB_times : Nat → Nat → Nat
  /-- Bytes of the member `alpha`. -/
  alpha : Nat → Nat
  /-- Bytes of the member `beta`. -/
  beta : Nat → Nat
  /-- Whether the `float` with the given four bytes compares equal to
  `alpha*(vA*index)*(vB*index)+beta*(vC*index)`. -/
  equal : List Nat → Nat → Bool
  /-- Text printed for the `float` with the given four bytes. -/
  showStored : List Nat → String
  /-- Text printed for `alpha*(vA*index)*(vB*index)+beta*(vC*index)`. -/
  showCorrect : Nat → String

/-- The bytes of an unsigned integer or a pointer, least significant first. -/
def leBytes (v : Nat) : Nat → Nat := fun i => v / 256 ^ i % 256

/-- Memory after a store of `n` bytes at `addr`. -/
def store (mem : Nat → Nat) (addr : Nat) (bytes : Nat → Nat) (n : Nat) : Nat → Nat :=
  fun a => if addr ≤ a ∧ a < addr + n then bytes (a - addr) else mem a

/-- The four bytes read by `Data<float>(i)`, at `system_ptr + 4 * i`. -/
def Buffer.Data (b : Buffer) (i : Nat) (mem : Nat → Nat) : List Nat :=
  [mem (b.system_ptr + 4 * i), mem (b.system_ptr + 4 * i + 1), mem (b.system_ptr + 4 * i + 2),
    mem (b.system_ptr + 4 * i + 3)]

/-- The loop `for (unsigned int i = 0; i < n; i++) buffer->Data<float>(i) = value(i);`. -/
def Buffer.fill (b : Buffer) (n : Nat) (value : Nat → Nat → Nat) (mem : Nat → Nat) :
    Nat → Nat :=
  (List.range n).foldl (fun m i => store m (b.system_ptr + 4 * i) (value i) 4) mem

/-- The function template `Dispatch::Kernarg<T>(ptr, size, align)`; `size` and `align`
default to `sizeof(T)`. -/
def Dispatch.Kernarg (ptr : Nat → Nat) (size align : Nat) (d : Dispatch) :
    Outcome Unit × Dispatch :=
  Dispatch.KernargRaw ptr size align d

/-- The method `Dispatch::Kernarg(Buffer* buffer)`: packs the local pointer of the buffer, a
`void*` of 8 bytes. -/
def Dispatch.KernargBuffer (buffer : Buffer) (d : Dispatch) : Outcome Unit × Dispatch :=
  Dispatch.Kernarg (leBytes buffer.LocalPtr) 8 8 d

namespace AsmKernelDispatch

/-- The member initialisers of the constructor (`unsigned int` arithmetic). -/
def M : Nat := 128

/-- See `M`. -/
def N : Nat := 128

/-- See `M`. -/
def K : Nat := 128

/-- The member `numElementsC(M*N)`. -/
def numElementsC : Nat := M * N % 2 ^ 32

/-- The member `numElementsA(M*K)`. -/
def numElementsA : Nat := M * K % 2 ^ 32

/-- The member `numElementsB(N*K)`. -/
def numElementsB : Nat := N * K % 2 ^ 32

/-- The member `sizeC(numElementsC*sizeof(float))`. -/
def sizeC : Nat := numElementsC * 4 % 2 ^ 32

/-- The member `sizeA(numElementsA*sizeof(float))`. -/
def sizeA : Nat := numElementsA * 4 % 2 ^ 32

/-- The member `sizeB(numElementsB*sizeof(float))`. -/
def sizeB : Nat := numElementsB * 4 % 2 ^ 32

/-- The member `offsetC(0)`. -/
def offsetC : Nat := 0

/-- The member `offsetA(0)`. -/
def offsetA : Nat := 0

/-- The member `offsetB(0)`. -/
def offsetB : Nat := 0

/-- The member `strideCJ(N)`. -/
def strideCJ : Nat := N

/-- The member `strideAK(K)`. -/
def strideAK : Nat := K

/-- The member `strideBK(K)`. -/
def strideBK : Nat := K

/-- The member `size0I(M)`. -/
def size0I : Nat := M

/-- The member `size1J(N)`. -/
def size1J : Nat := N

/-- The member `sizeK(K)`. -/
def sizeK : Nat := K

/-- The member `workGroup[2] = {16, 16}`. -/
def workGroup : Nat × Nat := (16, 16)

/-- The member `microTile[2] = {8, 8}`. -/
def microTile : Nat × Nat := (8, 8)

/-- The three `AllocateBuffer` calls of `Setup`, whose results go to `c`, `a`, `b`. -/
def allocate (P : Platform) (d : Dispatch) : Outcome Unit × Dispatch :=
  match Dispatch.AllocateBuffer P sizeC d with
  | (.abort f, d1) => (.abort f, d1)
  | (.ret c, d1) =>
    match Dispatch.AllocateBuffer P sizeA { d1 with c := c } with
    | (.abort f, d2) => (.abort f, d2)
    | (.ret a, d2) =>
      match Dispatch.AllocateBuffer P sizeB { d2 with a := a } with
      | (.abort f, d3) => (.abort f, d3)
      | (.ret b, d3) => (.ret (), { d3 with b := b })

/-- The three loops of `Setup` that store the initial values through `c`, `a` and `b`. A
pointer that is null is dereferenced by its loop. -/
def fill (F : FloatModel) (d : Dispatch) : Outcome Unit × Dispatch :=
  match d.c with
  | none => (.abort .nullDereference, d)
  | some c =>
    match d.a with
    | none =>
      (.abort .nullDereference, { d with mem := c.fill numElementsC F.vC_times d.mem })
    | some a =>
      match d.b with
      | none =>
        (.abort .nullDereference, { d with
          mem := a.fill numElementsA F.vA_times (c.fill numElementsC F.vC_times d.mem) })
      | some b =>
        (.ret (), { d with
          mem := b.fill numElementsB F.vB_times
            (a.fill numElementsA F.vA_times (c.fill numElementsC F.vC_times d.mem)) })

/-- One statement `if (!CopyTo(buffer)) output << "Error: failed to copy to local" <<
std::endl;` of `Setup`. -/
def copyToLogged (P : Platform) (buffer : Option Buffer) (d : Dispatch) :
    Outcome Unit × Dispatch :=
  match buffer with
  | none => (.abort .nullDereference, d)
  | some buf =>
    match Dispatch.CopyTo P buf d with
    | (true, d1) => (.ret (), d1)
    | (false, d1) =>
      (.ret (), { d1 with output := d1.output ++ "Error: failed to copy to local" ++ "\n" })

/-- The fourteen values that `Setup` packs, in the order of its `Kernarg` calls, each with
its size and alignment: three pointers, the two `float` members, nine `unsigned int`
members. -/
def kernargs (F : FloatModel) (c a b : Buffer) : List ((Nat → Nat) × Nat × Nat) :=
  [(leBytes c.LocalPtr, 8, 8), (leBytes a.LocalPtr, 8, 8), (leBytes b.LocalPtr, 8, 8),
    (F.alpha, 4, 4), (F.beta, 4, 4),
    (leBytes offsetC, 4, 4), (leBytes offsetA, 4, 4), (leBytes offsetB, 4, 4),
    (leBytes strideCJ, 4, 4), (leBytes strideAK, 4, 4), (leBytes strideBK, 4, 4),
    (leBytes size0I, 4, 4), (leBytes size1J, 4, 4), (leBytes sizeK, 4, 4)]

/-- The fourteen `Kernarg` calls of `Setup`. -/
def pack (F : FloatModel) (d : Dispatch) : Outcome Unit × Dispatch :=
  match d.c, d.a, d.b with
  | some c, some a, some b => Dispatch.KernargRawSeq (kernargs F c a b) d
  | _, _, _ => (.abort .nullDereference, d)

/-- The method `AsmKernelDispatch::Setup`. -/
def Setup (P : Platform) (F : FloatModel) (d : Dispatch) : Outcome Bool × Dispatch :=
  match Dispatch.AllocateKernarg P (3 * 8 + 11 * 4 + 0) d with
  | (false, d0) => (.ret false, d0)
  | (true, d0) =>
    match allocate P d0 with
    | (.abort f, d1) => (.abort f, d1)
    | (.ret _, d1) =>
      match fill F d1 with
      | (.abort f, d2) => (.abort f, d2)
      | (.ret _, d2) =>
        match copyToLogged P d2.c d2 with
        | (.abort f, d3) => (.abort f, d3)
        | (.ret _, d3) =>
          match copyToLogged P d3.a d3 with
          | (.abort f, d4) => (.abort f, d4)
          | (.ret _, d4) =>
            match copyToLogged P d4.b d4 with
            | (.abort f, d5) => (.abort f, d5)
            | (.ret _, d5) =>
              match pack F d5 with
              | (.abort f, d6) => (.abort f, d6)
              | (.ret _, d6) =>
                (.ret true,
                  Dispatch.SetWorkgroupSize (workGroup.1 % 2 ^ 16) (workGroup.2 % 2 ^ 16) 1
                    (Dispatch.SetGridSize (size0I / microTile.1) (size1J / microTile.2) 1 d6))

/-- The body of the inner loop of `Verify` for the indices `d1`, `d0`, acting on the flag
`valid` and the log. -/
def verifyStep (F : FloatModel) (c : Buffer) (mem : Nat → Nat) (d1 d0 : Nat)
    (acc : Bool × String) : Bool × String :=
  let index := (d1 * strideCJ + d0) % 2 ^ 32
  let equal := F.equal (c.Data index mem) index
  (if !equal then false else acc.1,
    acc.2 ++ "c[" ++ toString d1 ++ "," ++ toString d0 ++ "] = " ++
      F.showStored (c.Data index mem) ++ (if equal then " == " else " != ") ++
      F.showCorrect index ++ "\n")

/-- The method `AsmKernelDispatch::Verify`. -/
def Verify (P : Platform) (F : FloatModel) (d : Dispatch) : Outcome Bool × Dispatch :=
  match d.c with
  | none => (.abort .nullDereference, d)
  | some c =>
    match Dispatch.CopyFrom P c d with
    | (false, d1) =>
      (.ret false, { d1 with output := d1.output ++ "Error: failed to copy from local" ++ "\n" })
    | (true, d1) =>
      let r := (List.range size1J).foldl
        (fun acc i1 => (List.range size0I).foldl
          (fun acc i0 => verifyStep F c d1.mem i1 i0 acc) acc)
        (true, d1.output)
      (.ret r.1, { d1 with output := r.2 })

end AsmKernelDispatch

/-! ## Packing in exact arithmetic, and sample inputs -/

/-- Rounding `c` up to a multiple of `a` in exact arithmetic. -/
def roundUp (c a : Nat) : Nat := (c + a - 1) / a * a

/-- The cursor after packing the given values from cursor `c`, in exact arithmetic. -/
def packedEnd : Nat → List ((Nat → Nat) × Nat × Nat) → Nat
  | c, [] => c
  | c, (_, size, align) :: rest => packedEnd (roundUp c align + size) rest

/-- The copies (destination address and length) made when the given values are packed from
cursor `c` into the region at `base`, in exact arithmetic. -/
def packedWrites (base : Nat) : Nat → List ((Nat → Nat) × Nat × Nat) → List (Nat × Nat)
  | _, [] => []
  | c, (_, size, align) :: rest =>
    (base + roundUp c align, size) :: packedWrites base (roundUp c align + size) rest

/-- No `size_t` computation wraps around while the given values are packed from cursor `c`:
at every call, `cursor + align - 1` and `offset + size` stay below `2 ^ 64`. -/
def NoWrap : Nat → List ((Nat → Nat) × Nat × Nat) → Prop
  | _, [] => True
  | c, (_, size, align) :: rest =>
    c + align - 1 < SIZE_MOD ∧ roundUp c align + size < SIZE_MOD ∧
      NoWrap (roundUp c align + size) rest

/-- A runtime in which every call succeeds; the allocation made after `n` earlier calls
returns the address `4096 * (n + 1)`. -/
def Platform.succeeding : Platform where
  memory_allocate := fun calls _ _ => (HSA_STATUS_SUCCESS, 4096 * (calls.length + 1))
  memory_copy := fun _ _ _ _ => HSA_STATUS_SUCCESS
  memory_assign_agent := fun _ _ _ => HSA_STATUS_SUCCESS
  status_string := fun _ => none

/-- A runtime that refuses every permission assignment (status 4096, for which it has the
text "denied") and every copy (status 4097, no text), and succeeds otherwise. -/
def Platform.refusing : Platform where
  memory_allocate := fun calls _ _ => (HSA_STATUS_SUCCESS, 4096 * (calls.length + 1))
  memory_copy := fun _ _ _ _ => 4097
  memory_assign_agent := fun _ _ _ => 4096
  status_string := fun st => if st = 4096 then some "denied" else none

/-- The step from `d` to `d'` leaves the argument region alone: same region address, cursor,
record of copies, packet and buffer pointers, and runtime calls are only added. -/
def KernargUntouched (d d' : Dispatch) : Prop :=
  d'.kernarg = d.kernarg ∧ d'.kernarg_offset = d.kernarg_offset ∧ d'.memcpys = d.memcpys ∧
  d'.aql = d.aql ∧ d'.stores = d.stores ∧ d'.cout = d.cout ∧ d'.invoked = d.invoked ∧
  d'.c = d.c ∧ d'.a = d.a ∧ d'.b = d.b ∧ ∃ l, d'.calls = d.calls ++ l

/-- A `FloatModel` for examples: every value has zero bytes and every comparison holds. -/
def FloatModel.sample : FloatModel where
  vC_times := fun _ _ => 0
  vA_times := fun _ _ => 0
  vB_times := fun _ _ => 0
  alpha := fun _ => 0
  beta := fun _ => 0
  equal := fun _ _ => true
  showStored := fun _ => "0"
  showCorrect := fun _ => "0"

/-- A runtime with little memory: an allocation of more than 4096 bytes fails with status
4104, smaller ones and all other calls succeed. -/
def Platform.smallMemory : Platform where
  memory_allocate := fun calls _ size =>
    if size ≤ 4096 then (HSA_STATUS_SUCCESS, 4096 * (calls.length + 1)) else (4104, 0)
  memory_copy := fun _ _ _ _ => HSA_STATUS_SUCCESS
  memory_assign_agent := fun _ _ _ => HSA_STATUS_SUCCESS
  status_string := fun _ => none

/-- The enumerator values of the HSA 1.0 header. -/
def PacketEncoding.hsa : PacketEncoding where
  HSA_PACKET_TYPE_KERNEL_DISPATCH := 2
  HSA_PACKET_HEADER_TYPE := 0
  HSA_PACKET_HEADER_BARRIER := 8
  HSA_PACKET_HEADER_ACQUIRE_FENCE_SCOPE := 9
  HSA_PACKET_HEADER_RELEASE_FENCE_SCOPE := 11
  HSA_FENCE_SCOPE_SYSTEM := 2
  HSA_KERNEL_DISPATCH_PACKET_SETUP_DIMENSIONS := 0

end amd.dispatch

/-! ## TensileLib: `StructOperations.cpp` -/

namespace Tensile

/-- The struct `TensileDimension`: two `unsigned int` members. -/
structure TensileDimension where
  stride : Nat
  size : Nat
  deriving DecidableEq, Repr

/-- The function `operator<(const TensileDimension & l, const TensileDimension & r)`. -/
def TensileDimension.lt (l r : TensileDimension) : Bool :=
  if l.stride > r.stride then true
  else if r.stride > l.stride then false
  else if l.size > r.size then true
  else if r.size > l.size then false
  else false

/-- The function `operator==(const TensileDimension & l, const TensileDimension & r)`. -/
def TensileDimension.eq (l r : TensileDimension) : Bool :=
  l.size == r.size && l.stride == r.stride

end Tensile

namespace amd.dispatch

/-! ## Basic facts -/

theorem sub_one_size_t {a : Nat} (h0 : 0 < a) (hlt : a < SIZE_MOD) :
    (a + SIZE_MOD - 1) % SIZE_MOD = a - 1 := by
  have : a + SIZE_MOD - 1 = (a - 1) + SIZE_MOD := by omega
  rw [this, Nat.add_mod_right, Nat.mod_eq_of_lt (by omega)]

theorem memcpy_inside (mem : Nat → Nat) (dest : Nat) (src : Nat → Nat) (n i : Nat)
    (hi : i < n) : memcpy mem dest src n (dest + i) = src i := by
  simp [memcpy, hi]

theorem pow_two_land_pred (k : Nat) : (2 ^ k) &&& (2 ^ k - 1) = 0 := by
  rw [Nat.and_pow_two_sub_one_eq_mod, Nat.mod_self]

theorem assertion_passes_of_pow_two {align : Nat} (k : Nat) (hpow : align = 2 ^ k)
    (halign : align < SIZE_MOD) : (align &&& ((align + SIZE_MOD - 1) % SIZE_MOD)) = 0 := by
  have h0 : 0 < align := by rw [hpow]; exact Nat.pos_pow_of_pos k (by decide)
  rw [sub_one_size_t h0 halign, hpow]
  exact pow_two_land_pred k

/-- Without wrap-around `alignUp` is the usual rounding up to a multiple. -/
theorem alignUp_eq {c a : Nat} (h0 : 0 < a) (hfit : c + a - 1 < SIZE_MOD) :
    alignUp c a = (c + a - 1) / a * a := by
  unfold alignUp
  have h1 : c + a + SIZE_MOD - 1 = (c + a - 1) + SIZE_MOD := by omega
  rw [h1, Nat.add_mod_right, Nat.mod_eq_of_lt hfit]
  apply Nat.mod_eq_of_lt
  exact lt_of_le_of_lt (Nat.div_mul_le_self _ _) hfit

theorem roundUp_ge {c a : Nat} (h0 : 0 < a) : c ≤ (c + a - 1) / a * a := by
  have h := Nat.div_add_mod (c + a - 1) a
  have hm := Nat.mod_lt (c + a - 1) h0
  have : a * ((c + a - 1) / a) = (c + a - 1) / a * a := Nat.mul_comm _ _
  omega

theorem roundUp_le_of_multiple {c a m : Nat} (h0 : 0 < a) (hdvd : a ∣ m) (hle : c ≤ m) :
    (c + a - 1) / a * a ≤ m := by
  obtain ⟨q, rfl⟩ := hdvd
  have : (c + a - 1) / a < q + 1 := by
    rw [Nat.div_lt_iff_lt_mul h0]
    have : (q + 1) * a = a * q + a := by ring
    omega
  calc (c + a - 1) / a * a ≤ q * a := Nat.mul_le_mul_right a (by omega)
    _ = a * q := Nat.mul_comm _ _

theorem roundUp_isLeast {c a : Nat} (h0 : 0 < a) :
    IsLeast {m | a ∣ m ∧ c ≤ m} ((c + a - 1) / a * a) :=
  ⟨⟨Dvd.intro_left _ rfl, roundUp_ge h0⟩, fun _ hm => roundUp_le_of_multiple h0 hm.1 hm.2⟩

/-- What `KernargRaw` does once its assertion holds and `align` is not zero. -/
theorem KernargRaw_eq_of_assertion (ptr : Nat → Nat) (size align : Nat) (d : Dispatch)
    (hassert : (align &&& ((align + SIZE_MOD - 1) % SIZE_MOD)) = 0) (h0 : align ≠ 0) :
    Dispatch.KernargRaw ptr size align d =
      (.ret (), { d with
        kernarg_offset := (alignUp d.kernarg_offset align + size) % SIZE_MOD
        mem := memcpy d.mem (d.kernarg + alignUp d.kernarg_offset align) ptr size
        memcpys := d.memcpys ++ [(d.kernarg + alignUp d.kernarg_offset align, size)] }) := by
  simp [Dispatch.KernargRaw, hassert, h0]

/-! ## Kernel-argument packing: theorems -/

/-- C1. For a cursor `c = kernarg_offset` and an alignment `align = 2 ^ k` (a `size_t`) with
`c + align - 1` not overflowing `size_t`, `KernargRaw(ptr, size, align)` returns, and with
`o` the least multiple of `align` that is at least `c`: the one `memcpy` it executes writes
the `size` bytes of the value at `kernarg + o` (no other byte changes), and the cursor is
left at the `size_t` sum `o + size`, which is the exact sum whenever that fits in `size_t`. -/
theorem KernargRaw_places_at_least_multiple
    (ptr : Nat → Nat) (size align : Nat) (d : Dispatch) (k : Nat)
    (hpow : align = 2 ^ k) (halign : align < SIZE_MOD)
    (hfit : d.kernarg_offset + align - 1 < SIZE_MOD) :
    ∃ o d', IsLeast {m | align ∣ m ∧ d.kernarg_offset ≤ m} o ∧
      Dispatch.KernargRaw ptr size align d = (.ret (), d') ∧
      d'.memcpys = d.memcpys ++ [(d.kernarg + o, size)] ∧
      (∀ i, i < size → d'.mem (d.kernarg + o + i) = ptr i) ∧
      (∀ adr, ¬ (d.kernarg + o ≤ adr ∧ adr < d.kernarg + o + size) →
        d'.mem adr = d.mem adr) ∧
      d'.kernarg_offset = (o + size) % SIZE_MOD ∧
      (o + size < SIZE_MOD → d'.kernarg_offset = o + size) := by
  have h0 : 0 < align := by rw [hpow]; exact Nat.pos_pow_of_pos k (by decide)
  have hassert := assertion_passes_of_pow_two k hpow halign
  refine ⟨(d.kernarg_offset + align - 1) / align * align, _, roundUp_isLeast h0,
    KernargRaw_eq_of_assertion ptr size align d hassert (by omega), ?_, ?_, ?_, ?_, ?_⟩
  · simp [alignUp_eq h0 hfit]
  · intro i hi
    simp only [alignUp_eq h0 hfit, memcpy]
    rw [if_pos (by omega)]
    congr 1
    omega
  · intro adr hadr
    simp only [alignUp_eq h0 hfit, memcpy]
    rw [if_neg hadr]
  · simp [alignUp_eq h0 hfit]
  · intro hlt
    simp only [alignUp_eq h0 hfit]
    exact Nat.mod_eq_of_lt hlt

/-- Witness for C1: cursor 5, an 8-aligned value of 4 bytes. -/
theorem KernargRaw_places_at_least_multiple_witness :
    (8 = 2 ^ 3 ∧ 8 < SIZE_MOD ∧
      ({ kernarg_offset := 5 } : Dispatch).kernarg_offset + 8 - 1 < SIZE_MOD) ∧
    ∃ o d',
      IsLeast {m | 8 ∣ m ∧ ({ kernarg_offset := 5 } : Dispatch).kernarg_offset ≤ m} o ∧
      Dispatch.KernargRaw (fun i => i + 1) 4 8 { kernarg_offset := 5 } = (.ret (), d') ∧
      d'.memcpys = ({ kernarg_offset := 5 } : Dispatch).memcpys ++
        [(({ kernarg_offset := 5 } : Dispatch).kernarg + o, 4)] ∧
      (∀ i, i < 4 → d'.mem (({ kernarg_offset := 5 } : Dispatch).kernarg + o + i)
        = (fun i => i + 1) i) ∧
      (∀ adr, ¬ (({ kernarg_offset := 5 } : Dispatch).kernarg + o ≤ adr ∧
          adr < ({ kernarg_offset := 5 } : Dispatch).kernarg + o + 4) →
        d'.mem adr = ({ kernarg_offset := 5 } : Dispatch).mem adr) ∧
      d'.kernarg_offset = (o + 4) % SIZE_MOD ∧
      (o + 4 < SIZE_MOD → d'.kernarg_offset = o + 4) :=
  ⟨⟨by decide, by decide, by decide⟩,
    KernargRaw_places_at_least_multiple (fun i => i + 1) 4 8 { kernarg_offset := 5 } 3
      (by decide) (by decide) (by decide)⟩

/-- The layout produced by a run of `KernargRaw` calls that does not wrap: the run returns,
the cursor ends at `packedEnd`, and the executed copies follow one another in the region. -/
theorem KernargRawSeq_layout (calls : List ((Nat → Nat) × Nat × Nat)) :
    ∀ (d : Dispatch),
    (∀ call ∈ calls, ∃ k, call.2.2 = 2 ^ k ∧ call.2.2 < SIZE_MOD) →
    NoWrap d.kernarg_offset calls →
    ∃ d' W, Dispatch.KernargRawSeq calls d = (.ret (), d') ∧
      d'.kernarg = d.kernarg ∧
      d'.kernarg_offset = packedEnd d.kernarg_offset calls ∧
      d.kernarg_offset ≤ d'.kernarg_offset ∧
      d'.memcpys = d.memcpys ++ W ∧
      List.Forall₂ (fun call w => w.2 = call.2.1 ∧ d.kernarg ≤ w.1 ∧
        (w.1 - d.kernarg) % call.2.2 = 0) calls W ∧
      (∀ w ∈ W, d.kernarg + d.kernarg_offset ≤ w.1 ∧
        w.1 + w.2 ≤ d.kernarg + d'.kernarg_offset) ∧
      List.Pairwise (fun w1 w2 => w1.1 + w1.2 ≤ w2.1) W := by
  induction calls with
  | nil =>
    intro d _ _
    exact ⟨d, [], rfl, rfl, rfl, le_refl _, by simp, List.Forall₂.nil, by simp,
      List.Pairwise.nil⟩
  | cons call rest ih =>
    intro d hpow hnw
    obtain ⟨ptr, size, align⟩ := call
    obtain ⟨k, hk, halign⟩ := hpow (ptr, size, align) (List.mem_cons_self _ _)
    simp only at hk halign
    obtain ⟨hfit, hend, hrest⟩ := hnw
    have h0 : 0 < align := by rw [hk]; exact Nat.pos_pow_of_pos k (by decide)
    have hassert := assertion_passes_of_pow_two k hk halign
    have hstep := KernargRaw_eq_of_assertion ptr size align d hassert (by omega)
    have hal : alignUp d.kernarg_offset align = roundUp d.kernarg_offset align :=
      alignUp_eq h0 hfit
    have hge : d.kernarg_offset ≤ roundUp d.kernarg_offset align := roundUp_ge h0
    rw [hal, Nat.mod_eq_of_lt hend] at hstep
    obtain ⟨d', W, hrun, hk', hoff, hmono, hlog, hall, hin, hpw⟩ :=
      ih { d with
          kernarg_offset := roundUp d.kernarg_offset align + size
          mem := memcpy d.mem (d.kernarg + roundUp d.kernarg_offset align) ptr size
          memcpys := d.memcpys ++ [(d.kernarg + roundUp d.kernarg_offset align, size)] }
        (fun c hc => hpow c (List.mem_cons_of_mem _ hc)) hrest
    simp only at hk' hoff hmono hlog hall hin
    refine ⟨d', (d.kernarg + roundUp d.kernarg_offset align, size) :: W, ?_, hk', ?_, ?_, ?_,
      ?_, ?_, ?_⟩
    · simp only [Dispatch.KernargRawSeq, hstep]
      exact hrun
    · simpa [packedEnd] using hoff
    · omega
    · simp [hlog]
    · refine List.Forall₂.cons ⟨rfl, by simp, ?_⟩ hall
      simp only [Nat.add_sub_cancel_left, roundUp]
      exact Nat.mul_mod_left _ _
    · intro w hw
      rcases List.mem_cons.mp hw with rfl | hw
      · simp only
        omega
      · have := hin w hw
        omega
    · refine List.Pairwise.cons ?_ hpw
      intro w hw
      have := hin w hw
      simp only
      omega

theorem AllocateKernarg_cursor (P : Platform) (n : Nat) (d : Dispatch)
    (h : (Dispatch.AllocateKernarg P n d).1 = true) :
    (Dispatch.AllocateKernarg P n d).2.kernarg_offset = 0 := by
  unfold Dispatch.AllocateKernarg hsa_memory_allocate at h ⊢
  by_cases hs : (P.memory_allocate d.calls d.kernarg_region n).1 = HSA_STATUS_SUCCESS
  · simp [hs]
  · simp [hs, Dispatch.HsaError] at h

theorem packedEnd_ge (calls : List ((Nat → Nat) × Nat × Nat)) :
    ∀ c, (∀ call ∈ calls, 0 < call.2.2) → c ≤ packedEnd c calls := by
  induction calls with
  | nil => intro c _; exact le_refl _
  | cons call rest ih =>
    intro c hpos
    obtain ⟨ptr, size, align⟩ := call
    have h0 : 0 < align := hpos (ptr, size, align) (List.mem_cons_self _ _)
    have h1 : c ≤ roundUp c align := roundUp_ge h0
    have h2 := ih (roundUp c align + size) (fun x hx => hpos x (List.mem_cons_of_mem _ hx))
    simp only [packedEnd]
    omega

theorem pow_two_le_of_lt_size {a k : Nat} (hk : a = 2 ^ k) (hlt : a < SIZE_MOD) :
    a ≤ 2 ^ 63 := by
  have hk64 : k < 64 := by
    by_contra hge
    have : 2 ^ 64 ≤ 2 ^ k := Nat.pow_le_pow_right (by decide) (by omega)
    rw [hk] at hlt
    exact absurd hlt (by simp only [SIZE_MOD]; omega)
  rw [hk]
  exact Nat.pow_le_pow_right (by decide) (by omega)

/-- A layout that ends inside a region of fewer than `2 ^ 32` bytes never wraps. -/
theorem noWrap_of_packedEnd_le (n : Nat) (hn : n < 2 ^ 32)
    (calls : List ((Nat → Nat) × Nat × Nat)) :
    ∀ c, (∀ call ∈ calls, ∃ k, call.2.2 = 2 ^ k ∧ call.2.2 < SIZE_MOD) →
      packedEnd c calls ≤ n → NoWrap c calls := by
  induction calls with
  | nil => intro c _ _; trivial
  | cons call rest ih =>
    intro c hpow hfits
    obtain ⟨ptr, size, align⟩ := call
    obtain ⟨k, hk, halign⟩ := hpow (ptr, size, align) (List.mem_cons_self _ _)
    simp only at hk halign
    have h0 : 0 < align := by rw [hk]; exact Nat.pos_pow_of_pos k (by decide)
    have h63 := pow_two_le_of_lt_size hk halign
    have hrestpow : ∀ call ∈ rest, ∃ k, call.2.2 = 2 ^ k ∧ call.2.2 < SIZE_MOD :=
      fun x hx => hpow x (List.mem_cons_of_mem _ hx)
    have hpos : ∀ call ∈ rest, 0 < call.2.2 := by
      intro x hx
      obtain ⟨j, hj, _⟩ := hrestpow x hx
      rw [hj]; exact Nat.pos_pow_of_pos j (by decide)
    simp only [packedEnd] at hfits
    have h1 : c ≤ roundUp c align := roundUp_ge h0
    have h2 := packedEnd_ge rest (roundUp c align + size) hpos
    have hS : SIZE_MOD = 2 ^ 64 := rfl
    refine ⟨?_, ?_, ih _ hrestpow hfits⟩
    · omega
    · omega

theorem testBit_top {k r : Nat} (hr : r < 2 ^ k) : (2 ^ k + r).testBit k = true := by
  rw [Nat.testBit_two_pow_add_eq, Nat.testBit_lt_two_pow hr]; rfl

theorem not_pow_two_land_pred {a : Nat} (h0 : 0 < a) (hnp : ¬ ∃ k, a = 2 ^ k) :
    a &&& (a - 1) ≠ 0 := by
  obtain ⟨k, hlo, hhi⟩ : ∃ k, 2 ^ k ≤ a ∧ a < 2 ^ (k + 1) :=
    ⟨Nat.log 2 a, Nat.pow_log_le_self 2 (by omega), Nat.lt_pow_succ_log_self (by decide) a⟩
  have hne : a ≠ 2 ^ k := fun h => hnp ⟨_, h⟩
  have hsplit : 2 ^ (k + 1) = 2 ^ k + 2 ^ k := by
    rw [pow_succ]; omega
  obtain ⟨r, hr⟩ : ∃ r, a = 2 ^ k + (r + 1) := ⟨a - 2 ^ k - 1, by omega⟩
  have t1 : a.testBit k = true := by
    rw [hr]; exact testBit_top (by omega)
  have t2 : (a - 1).testBit k = true := by
    have : a - 1 = 2 ^ k + r := by omega
    rw [this]; exact testBit_top (by omega)
  intro hz
  have : (a &&& (a - 1)).testBit k = true := by
    rw [Nat.testBit_and, t1, t2]; rfl
  rw [hz, Nat.zero_testBit] at this
  exact Bool.noConfusion this

/-- For a nonzero `align` that is not a power of two the assertion of `KernargRaw` fails,
and nothing has been changed by then. -/
theorem KernargRaw_asserts_of_not_pow_two (ptr : Nat → Nat) (size align : Nat) (d : Dispatch)
    (h0 : align ≠ 0) (halign : align < SIZE_MOD) (hnp : ¬ ∃ k, align = 2 ^ k) :
    Dispatch.KernargRaw ptr size align d = (.abort .assertion, d) := by
  have hne : (align &&& ((align + SIZE_MOD - 1) % SIZE_MOD)) ≠ 0 := by
    rw [sub_one_size_t (by omega) halign]
    exact not_pow_two_land_pred (by omega) hnp
  simp [Dispatch.KernargRaw, hne]

/-- C2, as stated, fails when `size_t` wraps: after a successful `AllocateKernarg`, packing a
value of `2 ^ 64 - 1` bytes with alignment 1 and then one byte with alignment 2 puts the
second value at offset 0 again, below the end of the first one. -/
theorem KernargRaw_sequence_wraps :
    (Dispatch.AllocateKernarg Platform.succeeding 64 {}).1 = true ∧
    (Dispatch.KernargRawSeq [(fun _ => 0, 2 ^ 64 - 1, 1), (fun _ => 0, 1, 2)]
      (Dispatch.AllocateKernarg Platform.succeeding 64 {}).2).1 = .ret () ∧
    (Dispatch.KernargRawSeq [(fun _ => 0, 2 ^ 64 - 1, 1), (fun _ => 0, 1, 2)]
      (Dispatch.AllocateKernarg Platform.succeeding 64 {}).2).2.memcpys
        = [(4096, 2 ^ 64 - 1), (4096, 1)] ∧
    ¬ List.Chain' (fun w1 w2 : Nat × Nat => w1.1 + w1.2 ≤ w2.1)
      (Dispatch.KernargRawSeq [(fun _ => 0, 2 ^ 64 - 1, 1), (fun _ => 0, 1, 2)]
        (Dispatch.AllocateKernarg Platform.succeeding 64 {}).2).2.memcpys := by
  have h : (Dispatch.KernargRawSeq [(fun _ => 0, 2 ^ 64 - 1, 1), (fun _ => 0, 1, 2)]
      (Dispatch.AllocateKernarg Platform.succeeding 64 {}).2).2.memcpys
        = [(4096, 2 ^ 64 - 1), (4096, 1)] := by decide
  refine ⟨by decide, by decide, h, ?_⟩
  rw [h]
  simp

/-- C2 (amended). After a successful `AllocateKernarg`, for every run of `KernargRaw` calls
whose alignments are powers of two and in which no cursor computation wraps around `size_t`,
the run returns and has executed one copy per call, of that call's size, at an offset from
`kernarg` that is a multiple of that call's alignment; each copy starts at or after the end
of the copy before it, and more generally of every earlier copy, so no two overlap. -/
theorem KernargRaw_sequence_aligned_and_ordered
    (P : Platform) (n : Nat) (d0 : Dispatch) (calls : List ((Nat → Nat) × Nat × Nat))
    (halloc : (Dispatch.AllocateKernarg P n d0).1 = true)
    (hpow : ∀ call ∈ calls, ∃ k, call.2.2 = 2 ^ k ∧ call.2.2 < SIZE_MOD)
    (hnw : NoWrap 0 calls) :
    ∃ d' W, Dispatch.KernargRawSeq calls (Dispatch.AllocateKernarg P n d0).2 = (.ret (), d') ∧
      d'.memcpys = (Dispatch.AllocateKernarg P n d0).2.memcpys ++ W ∧
      List.Forall₂ (fun call w => w.2 = call.2.1 ∧
        (Dispatch.AllocateKernarg P n d0).2.kernarg ≤ w.1 ∧
        (w.1 - (Dispatch.AllocateKernarg P n d0).2.kernarg) % call.2.2 = 0) calls W ∧
      List.Chain' (fun w1 w2 => w1.1 + w1.2 ≤ w2.1) W ∧
      List.Pairwise (fun w1 w2 => w1.1 + w1.2 ≤ w2.1) W := by
  have hc := AllocateKernarg_cursor P n d0 halloc
  obtain ⟨d', W, hrun, _, _, _, hlog, hall, _, hpw⟩ :=
    KernargRawSeq_layout calls (Dispatch.AllocateKernarg P n d0).2 hpow (by rw [hc]; exact hnw)
  exact ⟨d', W, hrun, hlog, hall, hpw.chain', hpw⟩

/-- Witness for C2 (amended): an 8-byte value at alignment 8, then two 4-byte values. -/
theorem KernargRaw_sequence_aligned_and_ordered_witness :
    ∃ d' W, Dispatch.KernargRawSeq [(fun _ => 1, 8, 8), (fun _ => 2, 4, 4), (fun _ => 3, 4, 4)]
        (Dispatch.AllocateKernarg Platform.succeeding 68 {}).2 = (.ret (), d') ∧
      d'.memcpys = (Dispatch.AllocateKernarg Platform.succeeding 68 {}).2.memcpys ++ W ∧
      List.Forall₂ (fun call w => w.2 = call.2.1 ∧
        (Dispatch.AllocateKernarg Platform.succeeding 68 {}).2.kernarg ≤ w.1 ∧
        (w.1 - (Dispatch.AllocateKernarg Platform.succeeding 68 {}).2.kernarg) % call.2.2 = 0)
        ([(fun _ => 1, 8, 8), (fun _ => 2, 4, 4), (fun _ => 3, 4, 4)] :
          List ((Nat → Nat) × Nat × Nat)) W ∧
      List.Chain' (fun w1 w2 => w1.1 + w1.2 ≤ w2.1) W ∧
      List.Pairwise (fun w1 w2 => w1.1 + w1.2 ≤ w2.1) W :=
  KernargRaw_sequence_aligned_and_ordered Platform.succeeding 68 {}
    [(fun _ => 1, 8, 8), (fun _ => 2, 4, 4), (fun _ => 3, 4, 4)] (by decide)
    (by
      intro call hcall
      simp only [List.mem_cons, List.mem_singleton, List.not_mem_nil, or_false] at hcall
      rcases hcall with rfl | rfl | rfl
      · exact ⟨3, by decide, by decide⟩
      · exact ⟨2, by decide, by decide⟩
      · exact ⟨2, by decide, by decide⟩)
    (by simp [NoWrap, roundUp, SIZE_MOD])

/-- C3 fails at `align = 0`, which is not a power of two: the asserted expression
`(align & (align - 1)) == 0` is true there, so the assertion does not stop the call, and
the next statement divides by zero. -/
theorem KernargRaw_align_zero_passes_assertion (ptr : Nat → Nat) (size : Nat) (d : Dispatch) :
    (¬ ∃ k, 0 = 2 ^ k) ∧
    (0 &&& ((0 + SIZE_MOD - 1) % SIZE_MOD)) = 0 ∧
    Dispatch.KernargRaw ptr size 0 d = (.abort .divisionByZero, d) ∧
    Dispatch.KernargRaw ptr size 0 d ≠ (.abort .assertion, d) := by
  have h : Dispatch.KernargRaw ptr size 0 d = (.abort .divisionByZero, d) := by
    simp [Dispatch.KernargRaw]
  refine ⟨?_, by simp, h, ?_⟩
  · rintro ⟨k, hk⟩
    exact absurd hk.symm (by positivity)
  · rw [h]
    intro hcontra
    cases hcontra

/-- C4, as stated, fails: after `AllocateKernarg(4)` a call `KernargRaw(ptr, 8, 8)` returns
normally, has copied 8 bytes to `kernarg` (so the byte at `kernarg + 7`, past the 4-byte
region, now holds the value's last byte) and leaves the cursor at 8. -/
theorem KernargRaw_writes_past_region :
    (Dispatch.AllocateKernarg Platform.succeeding 4 {}).1 = true ∧
    (Dispatch.AllocateKernarg Platform.succeeding 4 {}).2.kernarg = 4096 ∧
    (Dispatch.KernargRaw (fun _ => 255) 8 8
      (Dispatch.AllocateKernarg Platform.succeeding 4 {}).2).1 = .ret () ∧
    (Dispatch.KernargRaw (fun _ => 255) 8 8
      (Dispatch.AllocateKernarg Platform.succeeding 4 {}).2).2.memcpys = [(4096, 8)] ∧
    (Dispatch.KernargRaw (fun _ => 255) 8 8
      (Dispatch.AllocateKernarg Platform.succeeding 4 {}).2).2.mem (4096 + 7) = 255 ∧
    (Dispatch.AllocateKernarg Platform.succeeding 4 {}).2.mem (4096 + 7) = 0 ∧
    4 < (Dispatch.KernargRaw (fun _ => 255) 8 8
      (Dispatch.AllocateKernarg Platform.succeeding 4 {}).2).2.kernarg_offset := by
  decide

/-- C4 (amended). `KernargRaw` never looks at the size given to `AllocateKernarg`. After a
successful `AllocateKernarg(n)` (`n` a `uint32_t`), a run of `KernargRaw` calls with
power-of-two alignments whose packed layout ends at or before `n` returns, leaves the
cursor at the end of that layout, which is at most `n`, and every copy it executed lies
inside the `n` bytes from `kernarg` on. -/
theorem KernargRaw_sequence_within_region
    (P : Platform) (n : Nat) (d0 : Dispatch) (calls : List ((Nat → Nat) × Nat × Nat))
    (halloc : (Dispatch.AllocateKernarg P n d0).1 = true)
    (hn : n < 2 ^ 32)
    (hpow : ∀ call ∈ calls, ∃ k, call.2.2 = 2 ^ k ∧ call.2.2 < SIZE_MOD)
    (hfits : packedEnd 0 calls ≤ n) :
    ∃ d' W, Dispatch.KernargRawSeq calls (Dispatch.AllocateKernarg P n d0).2 = (.ret (), d') ∧
      d'.kernarg_offset = packedEnd 0 calls ∧
      d'.kernarg_offset ≤ n ∧
      d'.memcpys = (Dispatch.AllocateKernarg P n d0).2.memcpys ++ W ∧
      W.length = calls.length ∧
      ∀ w ∈ W, (Dispatch.AllocateKernarg P n d0).2.kernarg ≤ w.1 ∧
        w.1 + w.2 ≤ (Dispatch.AllocateKernarg P n d0).2.kernarg + n := by
  have hc := AllocateKernarg_cursor P n d0 halloc
  have hnw : NoWrap (Dispatch.AllocateKernarg P n d0).2.kernarg_offset calls := by
    rw [hc]; exact noWrap_of_packedEnd_le n hn calls 0 hpow hfits
  obtain ⟨d', W, hrun, _, hoff, _, hlog, hall, hin, _⟩ :=
    KernargRawSeq_layout calls (Dispatch.AllocateKernarg P n d0).2 hpow hnw
  rw [hc] at hoff
  refine ⟨d', W, hrun, hoff, by omega, hlog, hall.length_eq.symm, ?_⟩
  intro w hw
  have := hin w hw
  omega

/-- Witness for C4 (amended): 16 bytes allocated, an 8-byte and a 4-byte value packed. -/
theorem KernargRaw_sequence_within_region_witness :
    ∃ d' W, Dispatch.KernargRawSeq [(fun _ => 1, 8, 8), (fun _ => 2, 4, 4)]
        (Dispatch.AllocateKernarg Platform.succeeding 16 {}).2 = (.ret (), d') ∧
      d'.kernarg_offset = packedEnd 0 [(fun _ => 1, 8, 8), (fun _ => 2, 4, 4)] ∧
      d'.kernarg_offset ≤ 16 ∧
      d'.memcpys = (Dispatch.AllocateKernarg Platform.succeeding 16 {}).2.memcpys ++ W ∧
      W.length = [((fun _ => 1 : Nat → Nat), 8, 8), (fun _ => 2, 4, 4)].length ∧
      ∀ w ∈ W, (Dispatch.AllocateKernarg Platform.succeeding 16 {}).2.kernarg ≤ w.1 ∧
        w.1 + w.2 ≤ (Dispatch.AllocateKernarg Platform.succeeding 16 {}).2.kernarg + 16 :=
  KernargRaw_sequence_within_region Platform.succeeding 16 {}
    [(fun _ => 1, 8, 8), (fun _ => 2, 4, 4)] (by decide) (by decide)
    (by
      intro call hcall
      simp only [List.mem_cons, List.mem_singleton, List.not_mem_nil, or_false] at hcall
      rcases hcall with rfl | rfl
      · exact ⟨3, by decide, by decide⟩
      · exact ⟨2, by decide, by decide⟩)
    (by decide)

/-- The exact effect of a run of `KernargRaw` calls that does not wrap: cursor, record of
copies and memory. Each value is found at its place afterwards, and memory below the first
place is as before. -/
theorem KernargRawSeq_exact (calls : List ((Nat → Nat) × Nat × Nat)) :
    ∀ (d : Dispatch),
    (∀ call ∈ calls, ∃ k, call.2.2 = 2 ^ k ∧ call.2.2 < SIZE_MOD) →
    NoWrap d.kernarg_offset calls →
    ∃ m' : Nat → Nat,
      Dispatch.KernargRawSeq calls d = (.ret (), { d with
        kernarg_offset := packedEnd d.kernarg_offset calls
        mem := m'
        memcpys := d.memcpys ++ packedWrites d.kernarg d.kernarg_offset calls }) ∧
      List.Forall₂ (fun call w => ∀ i, i < call.2.1 → m' (w.1 + i) = call.1 i) calls
        (packedWrites d.kernarg d.kernarg_offset calls) ∧
      ∀ adr, adr < d.kernarg + d.kernarg_offset → m' adr = d.mem adr := by
  induction calls with
  | nil =>
    intro d _ _
    exact ⟨d.mem, by simp [Dispatch.KernargRawSeq, packedEnd, packedWrites],
      List.Forall₂.nil, fun _ _ => rfl⟩
  | cons call rest ih =>
    intro d hpow hnw
    obtain ⟨ptr, size, align⟩ := call
    obtain ⟨k, hk, halign⟩ := hpow (ptr, size, align) (List.mem_cons_self _ _)
    simp only at hk halign
    obtain ⟨hfit, hend, hrest⟩ := hnw
    have h0 : 0 < align := by rw [hk]; exact Nat.pos_pow_of_pos k (by decide)
    have hassert := assertion_passes_of_pow_two k hk halign
    have hstep := KernargRaw_eq_of_assertion ptr size align d hassert (by omega)
    have hal : alignUp d.kernarg_offset align = roundUp d.kernarg_offset align :=
      alignUp_eq h0 hfit
    have hge : d.kernarg_offset ≤ roundUp d.kernarg_offset align := roundUp_ge h0
    rw [hal, Nat.mod_eq_of_lt hend] at hstep
    obtain ⟨m', hrun, hall, hlow⟩ :=
      ih { d with
          kernarg_offset := roundUp d.kernarg_offset align + size
          mem := memcpy d.mem (d.kernarg + roundUp d.kernarg_offset align) ptr size
          memcpys := d.memcpys ++ [(d.kernarg + roundUp d.kernarg_offset align, size)] }
        (fun c hc => hpow c (List.mem_cons_of_mem _ hc)) hrest
    simp only at hrun hall hlow
    refine ⟨m', ?_, ?_, ?_⟩
    · simp only [Dispatch.KernargRawSeq, hstep, hrun, packedEnd, packedWrites,
        List.append_assoc, List.singleton_append]
    · simp only [packedWrites]
      refine List.Forall₂.cons ?_ hall
      intro i hi
      dsimp only at hi ⊢
      rw [hlow _ (by omega)]
      exact memcpy_inside _ _ _ _ _ hi
    · intro adr hadr
      rw [hlow adr (by omega)]
      simp only [memcpy]
      rw [if_neg (by omega)]

/-! ## The lifecycle: theorems -/

theorem andAlso_assoc (a b c : Dispatch → Outcome Bool × Dispatch) :
    andAlso (andAlso a b) c = andAlso a (andAlso b c) := by
  funext d
  rcases h : a d with ⟨(_ | _) | f, d'⟩ <;> simp [andAlso, h]

theorem andAlso_ret_true (a : Dispatch → Outcome Bool × Dispatch) :
    andAlso a (fun d => (.ret true, d)) = a := by
  funext d
  rcases h : a d with ⟨(_ | _) | f, d'⟩ <;> simp [andAlso, h]

theorem chainOf_trace (steps : List (Phase × (Dispatch → Outcome Bool × Dispatch))) :
    ∀ d : Dispatch, ∃ tr, (chainOf steps d).2.invoked = d.invoked ++ tr ∧
      TraceOK (steps.map Prod.fst) tr (chainOf steps d).1 := by
  induction steps with
  | nil => intro d; exact ⟨[], by simp [chainOf], by simp [chainOf, TraceOK]⟩
  | cons s rest ih =>
    intro d
    obtain ⟨p, f⟩ := s
    rcases h : f d with ⟨(_ | _) | e, d'⟩
    · exact ⟨[(p, .ret false)], by simp [chainOf, andAlso, enter, h],
        by simp [chainOf, andAlso, enter, h, TraceOK]⟩
    · obtain ⟨tr, htr, hok⟩ := ih { d' with invoked := d.invoked ++ [(p, .ret true)] }
      refine ⟨(p, .ret true) :: tr, ?_, ?_⟩
      · simp only [chainOf, andAlso, enter, h]
        simpa using htr
      · simp only [chainOf, andAlso, enter, h, List.map_cons, TraceOK]
        exact Or.inr ⟨tr, rfl, hok⟩
    · exact ⟨[(p, .abort e)], by simp [chainOf, andAlso, enter, h],
        by simp [chainOf, andAlso, enter, h, TraceOK]⟩

theorem Run_eq_chainOf (ph : Phases) (d : Dispatch) :
    Dispatch.Run ph d =
      match chainOf ph.steps d with
      | (.abort f, d') => (.abort f, d')
      | (.ret res, d') =>
        (.ret res, { (if d'.output ≠ "" then { d' with cout := d'.cout ++ d'.output ++ "\n" }
            else d') with
          cout := (if d'.output ≠ "" then { d' with cout := d'.cout ++ d'.output ++ "\n" }
            else d').cout ++ (if res then "Success" else "Failed") ++ "\n" }) := by
  have h : chainOf ph.steps =
      andAlso (andAlso (andAlso (andAlso (andAlso (andAlso
        (enter .Init ph.Init)
        (enter .InitDispatch ph.InitDispatch))
        (enter .SetupExecutable ph.SetupExecutable))
        (enter .Setup ph.Setup))
        (enter .RunDispatch ph.RunDispatch))
        (enter .Wait ph.Wait))
        (enter .Verify ph.Verify) := by
    simp only [chainOf, Phases.steps, andAlso_assoc, andAlso_ret_true]
  rw [h]
  rfl

/-- The records left by `Run`, and its result, are those of a short-circuit chain over the
seven phases. -/
theorem Run_trace (ph : Phases) (d : Dispatch) :
    ∃ tr, (Dispatch.Run ph d).2.invoked = d.invoked ++ tr ∧
      TraceOK allPhases tr (Dispatch.Run ph d).1 := by
  obtain ⟨tr, htr, hok⟩ := chainOf_trace ph.steps d
  have hnames : ph.steps.map Prod.fst = allPhases := rfl
  rw [hnames] at hok
  refine ⟨tr, ?_, ?_⟩
  · rw [Run_eq_chainOf]
    rcases h : chainOf ph.steps d with ⟨r | e, d'⟩
    · rw [h] at htr
      by_cases ho : d'.output = "" <;> simp [ho] <;> exact htr
    · rw [h] at htr
      exact htr
  · rw [Run_eq_chainOf]
    rcases h : chainOf ph.steps d with ⟨r | e, d'⟩
    · rw [h] at hok
      exact hok
    · rw [h] at hok
      exact hok

/-- C5. `Run` invokes the phases in the order Init, InitDispatch, SetupExecutable, Setup,
RunDispatch, Wait, Verify: the phases it invoked are an initial part of that list, starting
with Init; every invoked phase other than the last one invoked returned true, so a phase
that returned false (or did not return) is followed by no other; as long as every phase
returns true all seven are invoked; and RunDispatch is invoked only after Init,
InitDispatch, SetupExecutable and Setup have each returned true. -/
theorem Run_invokes_phases_in_order_until_failure (ph : Phases) (d : Dispatch) :
    ∃ tr : List (Phase × Outcome Bool),
      (Dispatch.Run ph d).2.invoked = d.invoked ++ tr ∧
      tr ≠ [] ∧
      tr.map Prod.fst =
        ([.Init, .InitDispatch, .SetupExecutable, .Setup, .RunDispatch, .Wait, .Verify] :
          List Phase).take tr.length ∧
      (∀ e ∈ tr.dropLast, e.2 = .ret true) ∧
      ((∀ e ∈ tr, e.2 = .ret true) → tr.length = 7) ∧
      (Phase.RunDispatch ∈ tr.map Prod.fst →
        (Phase.Init, Outcome.ret true) ∈ tr ∧ (Phase.InitDispatch, Outcome.ret true) ∈ tr ∧
        (Phase.SetupExecutable, Outcome.ret true) ∈ tr ∧
        (Phase.Setup, Outcome.ret true) ∈ tr) := by
  obtain ⟨tr, htr, hok⟩ := Run_trace ph d
  refine ⟨tr, htr, ?_⟩
  generalize (Dispatch.Run ph d).1 = r at hok
  simp only [allPhases, TraceOK] at hok
  rcases hok with ⟨rfl, hr⟩ | ⟨tr0, rfl, ⟨rfl, hr⟩ | ⟨tr1, rfl, ⟨rfl, hr⟩ |
    ⟨tr2, rfl, ⟨rfl, hr⟩ | ⟨tr3, rfl, ⟨rfl, hr⟩ | ⟨tr4, rfl, ⟨rfl, hr⟩ |
    ⟨tr5, rfl, ⟨rfl, hr⟩ | ⟨tr6, rfl, ⟨rfl, hr⟩⟩⟩⟩⟩⟩⟩⟩
  all_goals simp_all

/-- C6. `RunMain` returns 0 exactly when all seven phases were invoked and each returned
true; it returns 1 exactly when some invoked phase returned false; it returns no other
value; and when the first six phases returned true its value is 0 or 1 according to what
Verify returned. -/
theorem RunMain_exit_code (ph : Phases) (d : Dispatch) :
    ∃ tr : List (Phase × Outcome Bool),
      (Dispatch.RunMain ph d).2.invoked = d.invoked ++ tr ∧
      ((Dispatch.RunMain ph d).1 = .ret 0 ↔
        tr = [(.Init, .ret true), (.InitDispatch, .ret true), (.SetupExecutable, .ret true),
          (.Setup, .ret true), (.RunDispatch, .ret true), (.Wait, .ret true),
          (.Verify, .ret true)]) ∧
      ((Dispatch.RunMain ph d).1 = .ret 1 ↔ ∃ p, (p, Outcome.ret false) ∈ tr) ∧
      (∀ c, (Dispatch.RunMain ph d).1 = .ret c → c = 0 ∨ c = 1) ∧
      (∀ b : Bool,
        tr = [(.Init, .ret true), (.InitDispatch, .ret true), (.SetupExecutable, .ret true),
          (.Setup, .ret true), (.RunDispatch, .ret true), (.Wait, .ret true),
          (.Verify, .ret b)] →
        (Dispatch.RunMain ph d).1 = .ret (if b then 0 else 1)) := by
  obtain ⟨tr, htr, hok⟩ := Run_trace ph d
  have hmain : (Dispatch.RunMain ph d).2.invoked = (Dispatch.Run ph d).2.invoked ∧
      (Dispatch.RunMain ph d).1 =
        match (Dispatch.Run ph d).1 with
        | .ret res => .ret (if res then 0 else 1)
        | .abort f => .abort f := by
    unfold Dispatch.RunMain
    rcases h : Dispatch.Run ph d with ⟨r | e, d'⟩ <;> simp
  refine ⟨tr, by rw [hmain.1]; exact htr, ?_⟩
  rw [hmain.2]
  generalize (Dispatch.Run ph d).1 = r at hok
  simp only [allPhases, TraceOK] at hok
  rcases hok with ⟨rfl, hr⟩ | ⟨tr0, rfl, ⟨rfl, hr⟩ | ⟨tr1, rfl, ⟨rfl, hr⟩ |
    ⟨tr2, rfl, ⟨rfl, hr⟩ | ⟨tr3, rfl, ⟨rfl, hr⟩ | ⟨tr4, rfl, ⟨rfl, hr⟩ |
    ⟨tr5, rfl, ⟨rfl, hr⟩ | ⟨tr6, rfl, ⟨rfl, hr⟩⟩⟩⟩⟩⟩⟩⟩
  all_goals (rcases r with (_ | _) | e <;> simp_all)

/-- When `SetupExecutable` returns true, `SetupCodeObject` returned true, the last runtime
call reported success, and the packet is the one `SetupCodeObject` left with the reported
code handle as `kernel_object`. -/
theorem SetupExecutable_ret_true (P : Platform)
    (SetupCodeObject : Dispatch → Outcome Bool × Dispatch) (d s : Dispatch)
    (h : Dispatch.SetupExecutable P SetupCodeObject d = (.ret true, s)) :
    ∃ d0 calls kernel_symbol,
      SetupCodeObject d = (.ret true, d0) ∧
      (P.executable_symbol_get_info calls kernel_symbol).1 = HSA_STATUS_SUCCESS ∧
      s.aql = { d0.aql with
        kernel_object := (P.executable_symbol_get_info calls kernel_symbol).2 } ∧
      s.signal = d0.signal := by
  unfold Dispatch.SetupExecutable at h
  rcases hc : SetupCodeObject d with ⟨(_ | _) | f, d0⟩
  · rw [hc] at h
    exact absurd (congrArg Prod.fst h) (by simp)
  · rw [hc] at h
    dsimp only [hsa_executable_create, hsa_executable_load_code_object,
      hsa_executable_freeze, hsa_executable_get_symbol, hsa_executable_symbol_get_info] at h
    split at h
    · exact absurd (congrArg Prod.fst h) (by simp)
    split at h
    · exact absurd (congrArg Prod.fst h) (by simp)
    split at h
    · exact absurd (congrArg Prod.fst h) (by simp)
    split at h
    · exact absurd (congrArg Prod.fst h) (by simp)
    split at h
    · exact absurd (congrArg Prod.fst h) (by simp)
    rename_i h5
    have hs := congrArg Prod.snd h
    dsimp only at hs
    refine ⟨d0, _, _, rfl, not_not.mp h5, ?_, ?_⟩
    · rw [← hs]
    · rw [← hs]
  · rw [hc] at h
    exact absurd (congrArg Prod.fst h) (by simp)

/-- A recorded call followed by more of the chain returns true only if the call returned
true; the rest of the chain then runs on the state the call left, which differs from it in
the record of invoked phases only. -/
theorem andAlso_enter_ret_true (p : Phase) (f g : Dispatch → Outcome Bool × Dispatch)
    (d s : Dispatch) (h : andAlso (enter p f) g d = (.ret true, s)) :
    ∃ s1 d1, f d = (.ret true, s1) ∧ d1.aql = s1.aql ∧ d1.signal = s1.signal ∧
      g d1 = (.ret true, s) := by
  unfold andAlso enter at h
  rcases hf : f d with ⟨(_ | _) | e, s1⟩
  · rw [hf] at h
    exact absurd (congrArg Prod.fst h) (by simp)
  · rw [hf] at h
    exact ⟨s1, { s1 with invoked := d.invoked ++ [(p, .ret true)] }, rfl, rfl, rfl, h⟩
  · rw [hf] at h
    exact absurd (congrArg Prod.fst h) (by simp)

theorem chainOf_append (l1 l2 : List (Phase × (Dispatch → Outcome Bool × Dispatch))) :
    chainOf (l1 ++ l2) = andAlso (chainOf l1) (chainOf l2) := by
  induction l1 with
  | nil =>
    funext d
    simp [chainOf, andAlso]
  | cons x rest ih =>
    show andAlso (enter x.1 x.2) (chainOf (rest ++ l2)) = _
    rw [ih]
    simp only [chainOf, andAlso_assoc]

/-- When the first four phase calls return true, the rest of the chain of `Run`, which
starts with the call of `RunDispatch`, runs on the state they left. -/
theorem chainOf_after_setup (ph : Phases) (d : Dispatch)
    (h : (Dispatch.beforeRunDispatch ph d).1 = .ret true) :
    chainOf ph.steps d = chainOf (ph.steps.drop 4) (Dispatch.beforeRunDispatch ph d).2 := by
  have hsplit : ph.steps = ph.steps.take 4 ++ ph.steps.drop 4 :=
    (List.take_append_drop 4 ph.steps).symm
  unfold Dispatch.beforeRunDispatch at h ⊢
  conv_lhs => rw [hsplit, chainOf_append]
  unfold andAlso
  rcases hc : chainOf (List.take 4 ph.steps) d with ⟨r, s⟩
  rw [hc] at h
  simp only at h
  subst h
  rfl

theorem Wait_loop_keeps_packet (CLOCKS_PER_SEC : Int) (results clock : Nat → Int) :
    ∀ (fuel j : Nat) (x x' : Dispatch) (r : Bool),
      Dispatch.Wait.loop CLOCKS_PER_SEC results clock fuel j x = some (r, x') →
      x'.aql = x.aql ∧ x'.stores = x.stores ∧ x'.queue = x.queue := by
  intro fuel
  induction fuel with
  | zero => intro j x x' r h; simp [Dispatch.Wait.loop] at h
  | succ fuel ih =>
    intro j x x' r h
    simp only [Dispatch.Wait.loop] at h
    split at h
    · simp only [Option.some.injEq, Prod.mk.injEq] at h
      obtain ⟨_, rfl⟩ := h
      exact ⟨rfl, rfl, rfl⟩
    split at h
    · exact ih _ _ _ _ h
    · simp only [Option.some.injEq, Prod.mk.injEq] at h
      obtain ⟨_, rfl⟩ := h
      exact ⟨rfl, rfl, rfl⟩

/-- C14, as stated, fails: with the `Setup` of the base class, which returns true without
allocating the argument region, and a `SetupCodeObject` that returns true, `Run` calls
`RunDispatch`, which stores the header word and rings the doorbell, while `kernarg_address`
is zero, before the store and after the run. -/
theorem Run_publishes_with_zero_kernarg_address :
    (Dispatch.Run (Dispatch.lifecycle Platform.succeeding PacketEncoding.hsa sampleInit
      sampleSetupCodeObject Dispatch.Setup sampleWait Dispatch.Verify) {}).1 = .ret true ∧
    (Dispatch.Run (Dispatch.lifecycle Platform.succeeding PacketEncoding.hsa sampleInit
      sampleSetupCodeObject Dispatch.Setup sampleWait Dispatch.Verify) {}).2.invoked =
      [(.Init, .ret true), (.InitDispatch, .ret true), (.SetupExecutable, .ret true),
        (.Setup, .ret true), (.RunDispatch, .ret true), (.Wait, .ret true),
        (.Verify, .ret true)] ∧
    (Dispatch.beforeRunDispatch (Dispatch.lifecycle Platform.succeeding PacketEncoding.hsa
      sampleInit sampleSetupCodeObject Dispatch.Setup sampleWait Dispatch.Verify)
      {}).2.aql.kernarg_address = 0 ∧
    (Dispatch.Run (Dispatch.lifecycle Platform.succeeding PacketEncoding.hsa sampleInit
      sampleSetupCodeObject Dispatch.Setup sampleWait Dispatch.Verify) {}).2.stores =
      [PacketStore.header32 136450, PacketStore.doorbell 0] ∧
    (Dispatch.Run (Dispatch.lifecycle Platform.succeeding PacketEncoding.hsa sampleInit
      sampleSetupCodeObject Dispatch.Setup sampleWait Dispatch.Verify) {}).2.aql.header
      = 5378 ∧
    (Dispatch.Run (Dispatch.lifecycle Platform.succeeding PacketEncoding.hsa sampleInit
      sampleSetupCodeObject Dispatch.Setup sampleWait Dispatch.Verify)
      {}).2.aql.kernarg_address = 0 := by
  refine ⟨by decide!, by decide!, by decide!, by decide!, by decide!, by decide!⟩

/-- C14 (amended). Consider an execution of `Run` whose first four phases return true, so
that `RunDispatch` is called next, and in which the caller-supplied `SetupCodeObject` and
`Setup` do not touch the member `signal` nor the packet fields `completion_signal` and
`kernel_object` (they are private; the public functions that write the packet are
`SetWorkgroupSize`, `SetGridSize` and `AllocateKernarg`). In the state on which `RunDispatch`
is called, `completion_signal` is the signal and `kernel_object` is the code handle that
`hsa_executable_symbol_get_info` reported with success; `RunDispatch` then changes only the
header word, and `Wait` changes no packet field. `kernarg_address` is what `SetupCodeObject`
and `Setup` left: if neither of them writes it, it is zero when the header is stored. -/
theorem Run_packet_at_header_store (P : Platform) (K : PacketEncoding)
    (Init SetupCodeObject Setup Wait Verify : Dispatch → Outcome Bool × Dispatch)
    (d : Dispatch)
    (hcode : ∀ x, (SetupCodeObject x).2.signal = x.signal ∧
      (SetupCodeObject x).2.aql.completion_signal = x.aql.completion_signal)
    (hsetup : ∀ x, (Setup x).2.signal = x.signal ∧
      (Setup x).2.aql.completion_signal = x.aql.completion_signal ∧
      (Setup x).2.aql.kernel_object = x.aql.kernel_object)
    (hreach : (Dispatch.beforeRunDispatch
      (Dispatch.lifecycle P K Init SetupCodeObject Setup Wait Verify) d).1 = .ret true) :
    chainOf (Dispatch.lifecycle P K Init SetupCodeObject Setup Wait Verify).steps d =
      andAlso (enter .RunDispatch (Dispatch.RunDispatch K))
        (andAlso (enter .Wait Wait) (enter .Verify Verify))
        (Dispatch.beforeRunDispatch
          (Dispatch.lifecycle P K Init SetupCodeObject Setup Wait Verify) d).2 ∧
    (Dispatch.beforeRunDispatch
      (Dispatch.lifecycle P K Init SetupCodeObject Setup Wait Verify) d).2.aql.completion_signal
      = (Dispatch.beforeRunDispatch
        (Dispatch.lifecycle P K Init SetupCodeObject Setup Wait Verify) d).2.signal ∧
    (∃ calls kernel_symbol,
      (P.executable_symbol_get_info calls kernel_symbol).1 = HSA_STATUS_SUCCESS ∧
      (Dispatch.beforeRunDispatch
        (Dispatch.lifecycle P K Init SetupCodeObject Setup Wait Verify) d).2.aql.kernel_object
        = (P.executable_symbol_get_info calls kernel_symbol).2) ∧
    ((∀ x, (SetupCodeObject x).2.aql.kernarg_address = x.aql.kernarg_address) →
      (∀ x, (Setup x).2.aql.kernarg_address = x.aql.kernarg_address) →
      (Dispatch.beforeRunDispatch
        (Dispatch.lifecycle P K Init SetupCodeObject Setup Wait Verify) d).2.aql.kernarg_address
        = 0) ∧
    (∀ x : Dispatch, ∃ header32 : Nat, (Dispatch.RunDispatch K x).2.aql =
      { x.aql with header := header32 % 2 ^ 16, setup := header32 / 2 ^ 16 }) ∧
    (∀ (CLOCKS_PER_SEC : Int) (results clock : Nat → Int) (fuel : Nat) (x x' : Dispatch)
      (r : Bool), Dispatch.Wait CLOCKS_PER_SEC results clock fuel x = some (r, x') →
      x'.aql = x.aql) := by
  have hafter := chainOf_after_setup _ d hreach
  rcases hb : Dispatch.beforeRunDispatch
    (Dispatch.lifecycle P K Init SetupCodeObject Setup Wait Verify) d with ⟨r, s⟩
  rw [hb] at hreach hafter
  simp only at hreach
  subst hreach
  have hb' := hb
  simp only [Dispatch.beforeRunDispatch, Dispatch.lifecycle, Phases.steps, List.take,
    chainOf] at hb'
  obtain ⟨s1, d1, _, _, _, h2⟩ := andAlso_enter_ret_true _ _ _ _ _ hb'
  obtain ⟨s2, d2, hs2, ha2, hg2, h3⟩ := andAlso_enter_ret_true _ _ _ _ _ h2
  obtain ⟨s3, d3, hs3, ha3, hg3, h4⟩ := andAlso_enter_ret_true _ _ _ _ _ h3
  obtain ⟨s4, d4, hs4, ha4, hg4, h5⟩ := andAlso_enter_ret_true _ _ _ _ _ h4
  have hs : d4 = s := congrArg Prod.snd h5
  subst hs
  have hi2 : s2 = (Dispatch.InitDispatch d1).2 := (congrArg Prod.snd hs2).symm
  have hsig2 : s2.aql.completion_signal = s2.signal := by rw [hi2]; rfl
  have hk2 : s2.aql.kernarg_address = 0 := by rw [hi2]; rfl
  obtain ⟨c0, calls, sym, hc0, hok, haql3, hsig3⟩ := SetupExecutable_ret_true _ _ _ _ hs3
  have hcode2 := hcode d2
  rw [hc0] at hcode2
  simp only at hcode2
  have hsetup3 := hsetup d3
  rw [hs4] at hsetup3
  simp only at hsetup3
  have hcs3 : s3.aql.completion_signal = c0.aql.completion_signal := by rw [haql3]
  have hko3 : s3.aql.kernel_object = (P.executable_symbol_get_info calls sym).2 := by
    rw [haql3]
  have hka3 : s3.aql.kernarg_address = c0.aql.kernarg_address := by rw [haql3]
  refine ⟨?_, ?_, ⟨calls, sym, hok, ?_⟩, ?_, ?_, ?_⟩
  · rw [hafter]
    simp only [Dispatch.lifecycle, Phases.steps, List.drop, chainOf, andAlso_ret_true]
  · rw [ha4, hg4, hsetup3.1, hsetup3.2.1, hg3, ha3, hcs3, hsig3, hcode2.1, hcode2.2, hg2, ha2]
    exact hsig2
  · rw [ha4, hsetup3.2.2, ha3]
    exact hko3
  · intro hkc hks
    have e1 := hks d3
    rw [hs4] at e1
    have e2 := hkc d2
    rw [hc0] at e2
    simp only at e1 e2
    rw [ha4, e1, ha3, hka3, e2, ha2]
    exact hk2
  · intro x
    exact ⟨_, rfl⟩
  · intro cps results clock fuel x x' r hw
    exact (Wait_loop_keeps_packet cps results clock fuel 0 x x' r hw).1

/-- Witness for C14 (amended): the base-class `Setup` on a runtime where every call succeeds;
the signal is bound, and `kernarg_address` is zero when `RunDispatch` is called. -/
theorem Run_packet_at_header_store_witness :
    (Dispatch.beforeRunDispatch (Dispatch.lifecycle Platform.succeeding PacketEncoding.hsa
      sampleInit sampleSetupCodeObject Dispatch.Setup sampleWait Dispatch.Verify) {}).1
      = .ret true ∧
    (Dispatch.beforeRunDispatch (Dispatch.lifecycle Platform.succeeding PacketEncoding.hsa
      sampleInit sampleSetupCodeObject Dispatch.Setup sampleWait Dispatch.Verify)
      {}).2.aql.completion_signal
      = (Dispatch.beforeRunDispatch (Dispatch.lifecycle Platform.succeeding PacketEncoding.hsa
        sampleInit sampleSetupCodeObject Dispatch.Setup sampleWait Dispatch.Verify)
        {}).2.signal ∧
    (Dispatch.beforeRunDispatch (Dispatch.lifecycle Platform.succeeding PacketEncoding.hsa
      sampleInit sampleSetupCodeObject Dispatch.Setup sampleWait Dispatch.Verify)
      {}).2.aql.kernarg_address = 0 :=
  have h := Run_packet_at_header_store Platform.succeeding PacketEncoding.hsa sampleInit
    sampleSetupCodeObject Dispatch.Setup sampleWait Dispatch.Verify {}
    (fun _ => ⟨rfl, rfl⟩) (fun _ => ⟨rfl, rfl, rfl⟩) (by decide!)
  ⟨by decide!, h.2.1, h.2.2.2.1 (fun _ => rfl) (fun _ => rfl)⟩

/-! ## Buffers and staging: theorems -/

theorem AllocateBuffer_without_local_region (P : Platform) (size : Nat) (d : Dispatch)
    (hl : d.local_region = 0)
    (hs1 : (P.memory_allocate d.calls d.system_region size).1 = HSA_STATUS_SUCCESS)
    (hs2 : (P.memory_allocate d.calls d.system_region size).2 ≠ 0) :
    Dispatch.AllocateBuffer P size d =
      (.ret (some (Buffer.mk2 size (P.memory_allocate d.calls d.system_region size).2)),
        { d with calls := d.calls ++ [HsaCall.memory_allocate d.system_region size] }) := by
  simp [Dispatch.AllocateBuffer, Dispatch.AllocateSystemMemory, hsa_memory_allocate,
    hl, hs1, hs2]

theorem AllocateBuffer_with_local_region (P : Platform) (size : Nat) (d : Dispatch)
    (hl : d.local_region ≠ 0)
    (hs1 : (P.memory_allocate d.calls d.system_region size).1 = HSA_STATUS_SUCCESS)
    (hs2 : (P.memory_allocate d.calls d.system_region size).2 ≠ 0)
    (hl1 : (P.memory_allocate (d.calls ++ [HsaCall.memory_allocate d.system_region size])
        d.local_region size).1 = HSA_STATUS_SUCCESS)
    (hl2 : (P.memory_allocate (d.calls ++ [HsaCall.memory_allocate d.system_region size])
        d.local_region size).2 ≠ 0) :
    Dispatch.AllocateBuffer P size d =
      (.ret (some (Buffer.mk3 size
          (P.memory_allocate (d.calls ++ [HsaCall.memory_allocate d.system_region size])
            d.local_region size).2
          (P.memory_allocate d.calls d.system_region size).2)),
        { d with calls := d.calls ++ [HsaCall.memory_allocate d.system_region size,
            HsaCall.memory_allocate d.local_region size] }) := by
  simp [Dispatch.AllocateBuffer, Dispatch.AllocateSystemMemory,
    Dispatch.AllocateLocalMemory, hsa_memory_allocate, hl, hs1, hs2, hl1, hl2]

/-- C7. When the allocations that `AllocateBuffer(size)` requests succeed (status success and
a non-null pointer; the local allocation, if one is made, at an address other than the
system one), it returns a `Buffer` with `Size() == size`, and the two addresses of that
buffer are equal (`IsLocal()` false) exactly when there is no local region
(`local_region.handle == 0`). With a local region the buffer has `IsLocal()` true and its
two addresses come from two allocations of `size` bytes, the first in the system region and
the second in the local region; without one a single allocation in the system region is
made. -/
theorem AllocateBuffer_staged_iff_local_region (P : Platform) (size : Nat) (d : Dispatch)
    (hsys : (P.memory_allocate d.calls d.system_region size).1 = HSA_STATUS_SUCCESS ∧
      (P.memory_allocate d.calls d.system_region size).2 ≠ 0)
    (hloc : d.local_region ≠ 0 →
      (P.memory_allocate (d.calls ++ [HsaCall.memory_allocate d.system_region size])
        d.local_region size).1 = HSA_STATUS_SUCCESS ∧
      (P.memory_allocate (d.calls ++ [HsaCall.memory_allocate d.system_region size])
        d.local_region size).2 ≠ 0 ∧
      (P.memory_allocate (d.calls ++ [HsaCall.memory_allocate d.system_region size])
        d.local_region size).2 ≠ (P.memory_allocate d.calls d.system_region size).2) :
    ∃ b d', Dispatch.AllocateBuffer P size d = (.ret (some b), d') ∧
      b.Size = size ∧
      (b.LocalPtr = b.SystemPtr ↔ d.local_region = 0) ∧
      (b.IsLocal = false ↔ d.local_region = 0) ∧
      b.SystemPtr = (P.memory_allocate d.calls d.system_region size).2 ∧
      (d.local_region = 0 →
        d'.calls = d.calls ++ [HsaCall.memory_allocate d.system_region size]) ∧
      (d.local_region ≠ 0 →
        b.IsLocal = true ∧
        b.LocalPtr = (P.memory_allocate
          (d.calls ++ [HsaCall.memory_allocate d.system_region size]) d.local_region size).2 ∧
        d'.calls = d.calls ++ [HsaCall.memory_allocate d.system_region size,
          HsaCall.memory_allocate d.local_region size]) := by
  obtain ⟨hs1, hs2⟩ := hsys
  by_cases hl : d.local_region = 0
  · refine ⟨_, _, AllocateBuffer_without_local_region P size d hl hs1 hs2, ?_⟩
    simp [Buffer.mk2, Buffer.Size, Buffer.LocalPtr, Buffer.SystemPtr, Buffer.IsLocal, hl]
  · obtain ⟨hl1, hl2, hl3⟩ := hloc hl
    refine ⟨_, _, AllocateBuffer_with_local_region P size d hl hs1 hs2 hl1 hl2, ?_⟩
    simp [Buffer.mk3, Buffer.Size, Buffer.LocalPtr, Buffer.SystemPtr, Buffer.IsLocal, hl, hl3]

/-- Witness for C7: a local region exists and both allocations succeed at different
addresses. -/
theorem AllocateBuffer_staged_iff_local_region_witness :
    ∃ b d', Dispatch.AllocateBuffer Platform.succeeding 100 { local_region := 1 }
        = (.ret (some b), d') ∧
      b.Size = 100 ∧
      (b.LocalPtr = b.SystemPtr ↔ ({ local_region := 1 } : Dispatch).local_region = 0) ∧
      (b.IsLocal = false ↔ ({ local_region := 1 } : Dispatch).local_region = 0) ∧
      b.SystemPtr = (Platform.succeeding.memory_allocate
        ({ local_region := 1 } : Dispatch).calls
        ({ local_region := 1 } : Dispatch).system_region 100).2 ∧
      (({ local_region := 1 } : Dispatch).local_region = 0 →
        d'.calls = ({ local_region := 1 } : Dispatch).calls ++
          [HsaCall.memory_allocate ({ local_region := 1 } : Dispatch).system_region 100]) ∧
      (({ local_region := 1 } : Dispatch).local_region ≠ 0 →
        b.IsLocal = true ∧
        b.LocalPtr = (Platform.succeeding.memory_allocate
          (({ local_region := 1 } : Dispatch).calls ++
            [HsaCall.memory_allocate ({ local_region := 1 } : Dispatch).system_region 100])
          ({ local_region := 1 } : Dispatch).local_region 100).2 ∧
        d'.calls = ({ local_region := 1 } : Dispatch).calls ++
          [HsaCall.memory_allocate ({ local_region := 1 } : Dispatch).system_region 100,
            HsaCall.memory_allocate ({ local_region := 1 } : Dispatch).local_region 100]) :=
  AllocateBuffer_staged_iff_local_region Platform.succeeding 100 { local_region := 1 }
    (by decide) (fun _ => by decide)

/-- C8. For an unstaged buffer (`LocalPtr() == SystemPtr()`), `CopyTo` and `CopyFrom` return
true and leave the whole state as it was: no runtime call is made (the record of calls is
unchanged), memory and the log are unchanged. The buffer is only read, so its size and both
addresses are the same afterwards. -/
theorem CopyTo_CopyFrom_unstaged_noop (P : Platform) (b : Buffer) (d : Dispatch)
    (h : b.LocalPtr = b.SystemPtr) :
    Dispatch.CopyTo P b d = (true, d) ∧ Dispatch.CopyFrom P b d = (true, d) := by
  have hl : b.IsLocal = false := by
    simp only [Buffer.LocalPtr, Buffer.SystemPtr] at h
    simp [Buffer.IsLocal, h]
  simp [Dispatch.CopyTo, Dispatch.CopyFrom, hl]

/-- Witness for C8: a buffer made by the two-argument constructor. -/
theorem CopyTo_CopyFrom_unstaged_noop_witness :
    (Buffer.mk2 16 4096).LocalPtr = (Buffer.mk2 16 4096).SystemPtr ∧
    Dispatch.CopyTo Platform.succeeding (Buffer.mk2 16 4096) {} = (true, {}) ∧
    Dispatch.CopyFrom Platform.succeeding (Buffer.mk2 16 4096) {} = (true, {}) :=
  ⟨rfl, CopyTo_CopyFrom_unstaged_noop Platform.succeeding (Buffer.mk2 16 4096) {} rfl⟩

theorem CopyTo_staged_success (P : Platform) (b : Buffer) (d : Dispatch)
    (hstaged : b.IsLocal = true)
    (hcopy : P.memory_copy d.calls b.local_ptr b.system_ptr b.size = HSA_STATUS_SUCCESS) :
    Dispatch.CopyTo P b d = (true, { d with
      calls := d.calls ++ [HsaCall.memory_copy b.local_ptr b.system_ptr b.size]
      mem := memcpy d.mem b.local_ptr (fun i => d.mem (b.system_ptr + i)) b.size }) := by
  simp [Dispatch.CopyTo, Dispatch.CopyToLocal, hsa_memory_copy, hstaged, hcopy,
    Buffer.LocalPtr, Buffer.SystemPtr, Buffer.Size]

theorem CopyFrom_staged_success (P : Platform) (b : Buffer) (d : Dispatch)
    (hstaged : b.IsLocal = true)
    (hassign : P.memory_assign_agent d.calls b.local_ptr d.cpu_agent = HSA_STATUS_SUCCESS)
    (hcopy : P.memory_copy (d.calls ++ [HsaCall.memory_assign_agent b.local_ptr d.cpu_agent])
      b.system_ptr b.local_ptr b.size = HSA_STATUS_SUCCESS) :
    Dispatch.CopyFrom P b d = (true, { d with
      calls := d.calls ++ [HsaCall.memory_assign_agent b.local_ptr d.cpu_agent,
        HsaCall.memory_copy b.system_ptr b.local_ptr b.size]
      mem := memcpy d.mem b.system_ptr (fun i => d.mem (b.local_ptr + i)) b.size }) := by
  simp [Dispatch.CopyFrom, Dispatch.CopyFromLocal, hsa_memory_copy, hsa_memory_assign_agent,
    hstaged, hassign, hcopy, Buffer.LocalPtr, Buffer.SystemPtr, Buffer.Size]

/-- C9. For a staged buffer, when the copy of `CopyTo` and the permission assignment and copy
of `CopyFrom` are reported successful, `CopyTo` followed directly by `CopyFrom` both return
true; after `CopyTo` each of the `Size()` bytes of the device region equals the byte of the
host region at the same index before the call, and after `CopyFrom` each byte of the host
region again equals that original byte. -/
theorem CopyTo_CopyFrom_roundtrip (P : Platform) (b : Buffer) (d : Dispatch)
    (hstaged : b.IsLocal = true)
    (hcopy1 : P.memory_copy d.calls b.local_ptr b.system_ptr b.size = HSA_STATUS_SUCCESS)
    (hassign : P.memory_assign_agent
      (d.calls ++ [HsaCall.memory_copy b.local_ptr b.system_ptr b.size])
      b.local_ptr d.cpu_agent = HSA_STATUS_SUCCESS)
    (hcopy2 : P.memory_copy
      (d.calls ++ [HsaCall.memory_copy b.local_ptr b.system_ptr b.size] ++
        [HsaCall.memory_assign_agent b.local_ptr d.cpu_agent])
      b.system_ptr b.local_ptr b.size = HSA_STATUS_SUCCESS) :
    (Dispatch.CopyTo P b d).1 = true ∧
    (∀ i, i < b.Size →
      (Dispatch.CopyTo P b d).2.mem (b.LocalPtr + i) = d.mem (b.SystemPtr + i)) ∧
    (Dispatch.CopyFrom P b (Dispatch.CopyTo P b d).2).1 = true ∧
    (∀ i, i < b.Size →
      (Dispatch.CopyFrom P b (Dispatch.CopyTo P b d).2).2.mem (b.SystemPtr + i)
        = d.mem (b.SystemPtr + i)) := by
  have h1 := CopyTo_staged_success P b d hstaged hcopy1
  have h2 := CopyFrom_staged_success P b (Dispatch.CopyTo P b d).2 hstaged
    (by rw [h1]; exact hassign) (by rw [h1]; exact hcopy2)
  rw [h2]
  rw [h1]
  simp only [Buffer.LocalPtr, Buffer.SystemPtr, Buffer.Size]
  refine ⟨trivial, ?_, trivial, ?_⟩
  · intro i hi
    exact memcpy_inside _ _ _ _ _ hi
  · intro i hi
    rw [memcpy_inside _ _ _ _ _ hi]
    exact memcpy_inside _ _ _ _ _ hi

/-- Witness for C9: a 4-byte staged buffer, host bytes 7 at 4096.., device region at 8192. -/
theorem CopyTo_CopyFrom_roundtrip_witness :
    (Dispatch.CopyTo Platform.succeeding (Buffer.mk3 4 8192 4096)
      { mem := fun a => if 4096 ≤ a ∧ a < 4100 then 7 else 0 }).1 = true ∧
    (∀ i, i < (Buffer.mk3 4 8192 4096).Size →
      (Dispatch.CopyTo Platform.succeeding (Buffer.mk3 4 8192 4096)
        { mem := fun a => if 4096 ≤ a ∧ a < 4100 then 7 else 0 }).2.mem
          ((Buffer.mk3 4 8192 4096).LocalPtr + i)
        = ({ mem := fun a => if 4096 ≤ a ∧ a < 4100 then 7 else 0 } : Dispatch).mem
          ((Buffer.mk3 4 8192 4096).SystemPtr + i)) ∧
    (Dispatch.CopyFrom Platform.succeeding (Buffer.mk3 4 8192 4096)
      (Dispatch.CopyTo Platform.succeeding (Buffer.mk3 4 8192 4096)
        { mem := fun a => if 4096 ≤ a ∧ a < 4100 then 7 else 0 }).2).1 = true ∧
    (∀ i, i < (Buffer.mk3 4 8192 4096).Size →
      (Dispatch.CopyFrom Platform.succeeding (Buffer.mk3 4 8192 4096)
        (Dispatch.CopyTo Platform.succeeding (Buffer.mk3 4 8192 4096)
          { mem := fun a => if 4096 ≤ a ∧ a < 4100 then 7 else 0 }).2).2.mem
          ((Buffer.mk3 4 8192 4096).SystemPtr + i)
        = ({ mem := fun a => if 4096 ≤ a ∧ a < 4100 then 7 else 0 } : Dispatch).mem
          ((Buffer.mk3 4 8192 4096).SystemPtr + i)) :=
  CopyTo_CopyFrom_roundtrip Platform.succeeding (Buffer.mk3 4 8192 4096)
    { mem := fun a => if 4096 ≤ a ∧ a < 4100 then 7 else 0 } (by decide) rfl rfl rfl

/-- C10. For a staged buffer: `CopyTo` returns false exactly when its `hsa_memory_copy`
reports a status other than success. `CopyFrom` first calls `hsa_memory_assign_agent` on the
device address for the CPU agent and calls `hsa_memory_copy` (device to host) after it, and
only if the assignment was reported successful; it returns false exactly when the
assignment, or else the copy, reports a status other than success. Every such failure
appends one line to the log, naming the call that failed. When the assignment fails no copy
is made and memory is unchanged. -/
theorem staging_failure_reporting (P : Platform) (b : Buffer) (d : Dispatch)
    (hstaged : b.IsLocal = true) :
    ((Dispatch.CopyTo P b d).1 = false ↔
      P.memory_copy d.calls b.LocalPtr b.SystemPtr b.Size ≠ HSA_STATUS_SUCCESS) ∧
    ((Dispatch.CopyTo P b d).1 = false →
      (Dispatch.CopyTo P b d).2.output = d.output ++ "hsa_memory_copy failed" ++ ": " ++
        (P.status_string (P.memory_copy d.calls b.LocalPtr b.SystemPtr b.Size)).getD
          "unknown error" ++ "\n") ∧
    ((Dispatch.CopyTo P b d).1 = true → (Dispatch.CopyTo P b d).2.output = d.output) ∧
    (Dispatch.CopyFrom P b d).2.calls =
      d.calls ++ HsaCall.memory_assign_agent b.LocalPtr d.cpu_agent ::
        (if P.memory_assign_agent d.calls b.LocalPtr d.cpu_agent = HSA_STATUS_SUCCESS then
          [HsaCall.memory_copy b.SystemPtr b.LocalPtr b.Size] else []) ∧
    ((Dispatch.CopyFrom P b d).1 = false ↔
      P.memory_assign_agent d.calls b.LocalPtr d.cpu_agent ≠ HSA_STATUS_SUCCESS ∨
      (P.memory_assign_agent d.calls b.LocalPtr d.cpu_agent = HSA_STATUS_SUCCESS ∧
        P.memory_copy (d.calls ++ [HsaCall.memory_assign_agent b.LocalPtr d.cpu_agent])
          b.SystemPtr b.LocalPtr b.Size ≠ HSA_STATUS_SUCCESS)) ∧
    (P.memory_assign_agent d.calls b.LocalPtr d.cpu_agent ≠ HSA_STATUS_SUCCESS →
      (Dispatch.CopyFrom P b d).2.mem = d.mem ∧
      (Dispatch.CopyFrom P b d).2.output = d.output ++ "hsa_memory_assign_agent failed" ++ ": "
        ++ (P.status_string (P.memory_assign_agent d.calls b.LocalPtr d.cpu_agent)).getD
          "unknown error" ++ "\n") ∧
    (P.memory_assign_agent d.calls b.LocalPtr d.cpu_agent = HSA_STATUS_SUCCESS →
      P.memory_copy (d.calls ++ [HsaCall.memory_assign_agent b.LocalPtr d.cpu_agent])
        b.SystemPtr b.LocalPtr b.Size ≠ HSA_STATUS_SUCCESS →
      (Dispatch.CopyFrom P b d).2.output = d.output ++ "hsa_memory_copy failed" ++ ": " ++
        (P.status_string (P.memory_copy
          (d.calls ++ [HsaCall.memory_assign_agent b.LocalPtr d.cpu_agent])
          b.SystemPtr b.LocalPtr b.Size)).getD "unknown error" ++ "\n") ∧
    ((Dispatch.CopyFrom P b d).1 = true → (Dispatch.CopyFrom P b d).2.output = d.output) := by
  simp only [Buffer.LocalPtr, Buffer.SystemPtr, Buffer.Size]
  refine ⟨?_, ?_, ?_, ?_, ?_, ?_, ?_, ?_⟩
  · by_cases hc : P.memory_copy d.calls b.local_ptr b.system_ptr b.size = HSA_STATUS_SUCCESS <;>
      simp [Dispatch.CopyTo, Dispatch.CopyToLocal, hsa_memory_copy, hstaged, hc,
        Buffer.LocalPtr, Buffer.SystemPtr, Buffer.Size]
  · by_cases hc : P.memory_copy d.calls b.local_ptr b.system_ptr b.size = HSA_STATUS_SUCCESS <;>
      simp [Dispatch.CopyTo, Dispatch.CopyToLocal, hsa_memory_copy, hstaged, hc,
        Dispatch.HsaError, Buffer.LocalPtr, Buffer.SystemPtr, Buffer.Size]
  · by_cases hc : P.memory_copy d.calls b.local_ptr b.system_ptr b.size = HSA_STATUS_SUCCESS <;>
      simp [Dispatch.CopyTo, Dispatch.CopyToLocal, hsa_memory_copy, hstaged, hc,
        Dispatch.HsaError, Buffer.LocalPtr, Buffer.SystemPtr, Buffer.Size]
  all_goals
    by_cases ha : P.memory_assign_agent d.calls b.local_ptr d.cpu_agent = HSA_STATUS_SUCCESS <;>
    by_cases hc : P.memory_copy
      (d.calls ++ [HsaCall.memory_assign_agent b.local_ptr d.cpu_agent])
      b.system_ptr b.local_ptr b.size = HSA_STATUS_SUCCESS <;>
    simp [Dispatch.CopyFrom, Dispatch.CopyFromLocal, hsa_memory_copy,
      hsa_memory_assign_agent, hstaged, ha, hc, Dispatch.HsaError, Buffer.LocalPtr,
      Buffer.SystemPtr, Buffer.Size]

/-- Witness for C10: a staged buffer on a runtime that refuses assignments and copies;
`CopyTo` fails in its copy, `CopyFrom` fails in the assignment and makes no copy call. -/
theorem staging_failure_reporting_witness :
    (Buffer.mk3 4 8192 4096).IsLocal = true ∧
    (Dispatch.CopyTo Platform.refusing (Buffer.mk3 4 8192 4096) { cpu_agent := 2 }).1 = false ∧
    (Dispatch.CopyFrom Platform.refusing (Buffer.mk3 4 8192 4096) { cpu_agent := 2 }).1 = false ∧
    (Dispatch.CopyFrom Platform.refusing (Buffer.mk3 4 8192 4096) { cpu_agent := 2 }).2.calls
      = [HsaCall.memory_assign_agent 8192 2] ∧
    (Dispatch.CopyFrom Platform.refusing (Buffer.mk3 4 8192 4096) { cpu_agent := 2 }).2.output
      = "hsa_memory_assign_agent failed: denied\n" :=
  have h := staging_failure_reporting Platform.refusing (Buffer.mk3 4 8192 4096)
    { cpu_agent := 2 } (by decide)
  ⟨by decide, h.1.mpr (by decide), h.2.2.2.2.1.mpr (Or.inl (by decide)), h.2.2.2.1,
    (h.2.2.2.2.2.1 (by decide)).2.trans (by decide)⟩


/-! ## Waiting for completion: theorems -/

theorem Wait_loop_result (CLOCKS_PER_SEC : Int) (results clock : Nat → Int) (d : Dispatch)
    (n : Nat) :
    ∀ (fuel j : Nat), j ≤ n → n - j < fuel →
    (∀ i, j ≤ i → i < n →
      results i ≠ 0 ∧ clock (i + 1) - clock 0 ≤ (TIMEOUT : Int) * CLOCKS_PER_SEC) →
    (results n = 0 ∨ clock (n + 1) - clock 0 > (TIMEOUT : Int) * CLOCKS_PER_SEC) →
    Dispatch.Wait.loop CLOCKS_PER_SEC results clock fuel j d =
      some (if clock (n + 1) - clock 0 > (TIMEOUT : Int) * CLOCKS_PER_SEC then
        (false, { d with
          output := d.output ++ "Kernel execution timed out, elapsed time: " ++
            toString (clock (n + 1) - clock 0) ++ "\n" })
      else (true, d)) := by
  intro fuel
  induction fuel with
  | zero => intro j _ hfuel; omega
  | succ fuel ih =>
    intro j hj hfuel hbefore hn
    rcases Nat.lt_or_ge j n with hlt | hge
    · obtain ⟨hr, hc⟩ := hbefore j (le_refl _) hlt
      simp only [Dispatch.Wait.loop]
      rw [if_neg (by omega), if_pos hr]
      exact ih (j + 1) (by omega) (by omega)
        (fun i hi1 hi2 => hbefore i (by omega) hi2) hn
    · have hjn : j = n := by omega
      subst hjn
      simp only [Dispatch.Wait.loop]
      by_cases hc : clock (j + 1) - clock 0 > (TIMEOUT : Int) * CLOCKS_PER_SEC
      · rw [if_pos hc, if_pos hc]
      · rw [if_neg hc, if_neg hc]
        have hr : results j = 0 := by
          rcases hn with h | h
          · exact h
          · exact absurd h hc
        rw [if_neg (by simp [hr])]

/-- C11, as stated, fails: when the first wait reports the signal at zero but the clock
reading taken after it is 121 seconds past `beg`, `Wait` returns false and logs a timeout. -/
theorem Wait_reports_timeout_although_signal_zero :
    (fun _ : Nat => (0 : Int)) 0 = 0 ∧
    Dispatch.Wait 1000000 (fun _ => 0) (fun j => if j = 0 then 0 else 121000000) 1 {}
      = some (false,
        { output := "Kernel execution timed out, elapsed time: 121000000\n" }) := by
  refine ⟨rfl, ?_⟩
  simp only [Dispatch.Wait, Dispatch.Wait.loop, TIMEOUT]
  rw [if_pos (by decide)]
  congr 1

/-- C11 (amended). Take the first wait `n` that either reports the signal at zero or is
followed by a clock reading more than `TIMEOUT * CLOCKS_PER_SEC` past `beg`. Given more than
`n` units of fuel, `Wait` ends at that wait: it returns false, after logging the timeout,
when that reading is past the limit, whatever the wait reported, and it returns true,
changing nothing, when the wait reported zero with the reading within the limit. -/
theorem Wait_result (CLOCKS_PER_SEC : Int) (results clock : Nat → Int) (d : Dispatch)
    (n fuel : Nat)
    (hbefore : ∀ i, i < n →
      results i ≠ 0 ∧ clock (i + 1) - clock 0 ≤ (TIMEOUT : Int) * CLOCKS_PER_SEC)
    (hn : results n = 0 ∨ clock (n + 1) - clock 0 > (TIMEOUT : Int) * CLOCKS_PER_SEC)
    (hfuel : n < fuel) :
    Dispatch.Wait CLOCKS_PER_SEC results clock fuel d =
      some (if clock (n + 1) - clock 0 > (TIMEOUT : Int) * CLOCKS_PER_SEC then
        (false, { d with
          output := d.output ++ "Kernel execution timed out, elapsed time: " ++
            toString (clock (n + 1) - clock 0) ++ "\n" })
      else (true, d)) :=
  Wait_loop_result CLOCKS_PER_SEC results clock d n fuel 0 (Nat.zero_le _) (by omega)
    (fun i _ hi => hbefore i hi) hn

/-- Witness for C11 (amended): two waits report a busy signal, the third reports zero, all
within the limit; `Wait` returns true. -/
theorem Wait_result_witness :
    Dispatch.Wait 1000000 (fun j => if j < 2 then 1 else 0) (fun j => j) 3 {} =
      some (true, {}) :=
  (Wait_result 1000000 (fun j => if j < 2 then 1 else 0) (fun j => j) {} 2 3
    (by intro i hi; interval_cases i <;> simp [TIMEOUT]) (by simp) (by decide)).trans
    (by simp [TIMEOUT])

/-! ## The command queue: theorems -/

/-- C12. For a queue whose capacity `queue->size` is a power of two (a `uint32_t`) and any
write index, `InitDispatch` returns true, `packet_index` is the value the write index had
before the call, the write index has been increased by 1 (in 64 bits), and the slot the
packet pointer is set to, `packet_index & (queue->size - 1)`, equals
`packet_index mod queue->size` and is less than `queue->size`. -/
theorem InitDispatch_slot (d : Dispatch) (k : Nat)
    (hcap : d.queue.size = 2 ^ k) (hsize : d.queue.size < 2 ^ 32) :
    (Dispatch.InitDispatch d).1 = .ret true ∧
    (Dispatch.InitDispatch d).2.packet_index = d.queue.write_index ∧
    (Dispatch.InitDispatch d).2.queue.write_index = (d.queue.write_index + 1) % 2 ^ 64 ∧
    (Dispatch.InitDispatch d).2.queue.size = d.queue.size ∧
    (Dispatch.InitDispatch d).2.aql_slot =
      (Dispatch.InitDispatch d).2.packet_index &&& (d.queue.size - 1) ∧
    (Dispatch.InitDispatch d).2.aql_slot =
      (Dispatch.InitDispatch d).2.packet_index % d.queue.size ∧
    (Dispatch.InitDispatch d).2.aql_slot < d.queue.size := by
  have hpos : 0 < d.queue.size := by rw [hcap]; exact Nat.pos_pow_of_pos k (by decide)
  have hmask : (d.queue.size + 2 ^ 32 - 1) % 2 ^ 32 = d.queue.size - 1 := by
    have : d.queue.size + 2 ^ 32 - 1 = (d.queue.size - 1) + 2 ^ 32 := by omega
    rw [this, Nat.add_mod_right, Nat.mod_eq_of_lt (by omega)]
  have hslot : (Dispatch.InitDispatch d).2.aql_slot =
      d.queue.write_index &&& (d.queue.size - 1) := by
    simp only [Dispatch.InitDispatch, hsa_queue_add_write_index_relaxed, hmask]
  have hmod : d.queue.write_index &&& (d.queue.size - 1) =
      d.queue.write_index % d.queue.size := by
    rw [hcap, Nat.and_pow_two_sub_one_eq_mod]
  have hidx : (Dispatch.InitDispatch d).2.packet_index = d.queue.write_index := by
    simp [Dispatch.InitDispatch, hsa_queue_add_write_index_relaxed]
  refine ⟨by simp [Dispatch.InitDispatch, hsa_queue_add_write_index_relaxed], hidx,
    by simp [Dispatch.InitDispatch, hsa_queue_add_write_index_relaxed],
    by simp [Dispatch.InitDispatch, hsa_queue_add_write_index_relaxed], ?_, ?_, ?_⟩
  · rw [hslot, hidx]
  · rw [hslot, hidx, hmod]
  · rw [hslot, hmod]
    exact Nat.mod_lt _ hpos

/-- Witness for C12: a queue of 8 slots whose write index is 13; the slot is 5. -/
theorem InitDispatch_slot_witness :
    (Dispatch.InitDispatch { queue := { size := 8, write_index := 13 } }).2.packet_index = 13 ∧
    (Dispatch.InitDispatch { queue := { size := 8, write_index := 13 } }).2.queue.write_index
      = 14 ∧
    (Dispatch.InitDispatch { queue := { size := 8, write_index := 13 } }).2.aql_slot = 5 :=
  have h := InitDispatch_slot { queue := { size := 8, write_index := 13 } } 3
    (by decide) (by decide)
  ⟨h.2.1, h.2.2.1, h.2.2.2.2.2.1⟩

/-- C13. `RunDispatch` returns true and, of the reserved packet, changes only the first
32-bit word: afterwards the packet is the one before with `header` and `setup` replaced by
the two halves of the stored word, every other field as it was. It makes two stores, the
header word first and the doorbell second, and the value stored to the doorbell is the
member `packet_index`, which it leaves unchanged; called on the state that `InitDispatch`
left, that is the write index `InitDispatch` reserved. -/
theorem RunDispatch_stores_header_then_doorbell (K : PacketEncoding) (d : Dispatch) :
    (Dispatch.RunDispatch K d).1 = .ret true ∧
    ∃ header32 : Nat,
      (Dispatch.RunDispatch K d).2.aql =
        { d.aql with header := header32 % 2 ^ 16, setup := header32 / 2 ^ 16 } ∧
      (Dispatch.RunDispatch K d).2.stores =
        d.stores ++ [PacketStore.header32 header32, PacketStore.doorbell d.packet_index] ∧
      (Dispatch.RunDispatch K d).2.queue = { d.queue with doorbell_signal := d.packet_index } ∧
      (Dispatch.RunDispatch K d).2.packet_index = d.packet_index ∧
      (Dispatch.RunDispatch K d).2.aql_slot = d.aql_slot ∧
      ∀ d0 : Dispatch, d = (Dispatch.InitDispatch d0).2 →
        (Dispatch.RunDispatch K d).2.queue.doorbell_signal = d0.queue.write_index := by
  refine ⟨rfl, _, rfl, by simp [Dispatch.RunDispatch], rfl, rfl, rfl, ?_⟩
  intro d0 hd
  subst hd
  rfl

/-! ## `AsmKernelDispatch`: theorems -/

theorem KernargUntouched.refl (d : Dispatch) : KernargUntouched d d :=
  ⟨rfl, rfl, rfl, rfl, rfl, rfl, rfl, rfl, rfl, rfl, [], by simp⟩

theorem KernargUntouched.trans {d1 d2 d3 : Dispatch} (h12 : KernargUntouched d1 d2)
    (h23 : KernargUntouched d2 d3) : KernargUntouched d1 d3 := by
  obtain ⟨a1, a2, a3, a4, a5, a6, a7, a8, a9, a10, l1, hl1⟩ := h12
  obtain ⟨b1, b2, b3, b4, b5, b6, b7, b8, b9, b10, l2, hl2⟩ := h23
  exact ⟨b1.trans a1, b2.trans a2, b3.trans a3, b4.trans a4, b5.trans a5, b6.trans a6,
    b7.trans a7, b8.trans a8, b9.trans a9, b10.trans a10, l1 ++ l2,
    by rw [hl2, hl1, List.append_assoc]⟩

theorem HsaError_untouched (P : Platform) (msg : String) (status : hsa_status_t)
    (d : Dispatch) : KernargUntouched d (Dispatch.HsaError P msg status d).2 :=
  ⟨rfl, rfl, rfl, rfl, rfl, rfl, rfl, rfl, rfl, rfl, [], by simp [Dispatch.HsaError]⟩

theorem hsa_memory_allocate_untouched (P : Platform) (region size : Nat) (d : Dispatch) :
    KernargUntouched d (hsa_memory_allocate P region size d).2.2 :=
  ⟨rfl, rfl, rfl, rfl, rfl, rfl, rfl, rfl, rfl, rfl, _, rfl⟩

theorem AllocateSystemMemory_untouched (P : Platform) (size : Nat) (d : Dispatch) :
    KernargUntouched d (Dispatch.AllocateSystemMemory P size d).2 := by
  unfold Dispatch.AllocateSystemMemory
  dsimp only
  split
  · exact (hsa_memory_allocate_untouched P _ size d).trans (HsaError_untouched P _ _ _)
  · exact hsa_memory_allocate_untouched P _ size d

theorem AllocateLocalMemory_untouched (P : Platform) (size : Nat) (d : Dispatch) :
    KernargUntouched d (Dispatch.AllocateLocalMemory P size d).2 := by
  unfold Dispatch.AllocateLocalMemory
  split
  · exact KernargUntouched.refl d
  · dsimp only
    split
    · exact (hsa_memory_allocate_untouched P _ size d).trans (HsaError_untouched P _ _ _)
    · exact hsa_memory_allocate_untouched P _ size d

theorem AllocateBuffer_untouched (P : Platform) (size : Nat) (d : Dispatch) :
    KernargUntouched d (Dispatch.AllocateBuffer P size d).2 := by
  have hsys := AllocateSystemMemory_untouched P size d
  have hloc := AllocateLocalMemory_untouched P size (Dispatch.AllocateSystemMemory P size d).2
  unfold Dispatch.AllocateBuffer
  rcases hs : Dispatch.AllocateSystemMemory P size d with ⟨system_ptr, d1⟩
  rw [hs] at hsys hloc
  dsimp only at hsys hloc ⊢
  split
  · split
    · exact hsys
    · rcases hl : Dispatch.AllocateLocalMemory P size d1 with ⟨(local_ptr | f), d2⟩
      · rw [hl] at hloc
        dsimp only at hloc ⊢
        split
        · exact hsys.trans (hloc.trans
            ⟨rfl, rfl, rfl, rfl, rfl, rfl, rfl, rfl, rfl, rfl, _, rfl⟩)
        · exact hsys.trans hloc
      · rw [hl] at hloc
        exact hsys.trans hloc
  · split
    · exact hsys
    · exact hsys

theorem CopyTo_untouched (P : Platform) (buffer : Buffer) (d : Dispatch) :
    KernargUntouched d (Dispatch.CopyTo P buffer d).2 := by
  unfold Dispatch.CopyTo
  split
  · unfold Dispatch.CopyToLocal
    dsimp only
    split
    · exact KernargUntouched.trans
        (⟨rfl, rfl, rfl, rfl, rfl, rfl, rfl, rfl, rfl, rfl, _, rfl⟩ :
          KernargUntouched d (hsa_memory_copy P buffer.LocalPtr buffer.SystemPtr
            buffer.Size d).2)
        (HsaError_untouched P _ _ _)
    · exact ⟨rfl, rfl, rfl, rfl, rfl, rfl, rfl, rfl, rfl, rfl, _, rfl⟩
  · exact KernargUntouched.refl d

theorem copyToLogged_untouched (P : Platform) (buffer : Option Buffer) (d : Dispatch) :
    KernargUntouched d (AsmKernelDispatch.copyToLogged P buffer d).2 := by
  cases buffer with
  | none => exact KernargUntouched.refl d
  | some buf =>
    have h := CopyTo_untouched P buf d
    dsimp only [AsmKernelDispatch.copyToLogged]
    rcases hc : Dispatch.CopyTo P buf d with ⟨(_ | _), d1⟩
    · rw [hc] at h
      exact h.trans ⟨rfl, rfl, rfl, rfl, rfl, rfl, rfl, rfl, rfl, rfl, [], by simp⟩
    · rw [hc] at h
      exact h

theorem AllocateKernarg_ret_true (P : Platform) (n : Nat) (d d0 : Dispatch)
    (h : Dispatch.AllocateKernarg P n d = (true, d0)) :
    d0.kernarg_offset = 0 ∧ d0.memcpys = d.memcpys ∧ d0.stores = d.stores ∧
    d0.cout = d.cout ∧ d0.invoked = d.invoked ∧
    d0.calls = d.calls ++ [HsaCall.memory_allocate d.kernarg_region n] ∧
    d0.aql.kernarg_address = d0.kernarg := by
  unfold Dispatch.AllocateKernarg hsa_memory_allocate at h
  dsimp only at h
  split at h
  · exact absurd (congrArg Prod.fst h) (by simp [Dispatch.HsaError])
  · have hs := congrArg Prod.snd h
    dsimp only at hs
    subst hs
    exact ⟨rfl, rfl, rfl, rfl, rfl, rfl, rfl⟩

/-- The three allocations of `Setup` leave the argument region alone. -/
theorem allocate_frame (P : Platform) (d : Dispatch) :
    (AsmKernelDispatch.allocate P d).2.kernarg = d.kernarg ∧
    (AsmKernelDispatch.allocate P d).2.kernarg_offset = d.kernarg_offset ∧
    (AsmKernelDispatch.allocate P d).2.memcpys = d.memcpys ∧
    (AsmKernelDispatch.allocate P d).2.aql = d.aql ∧
    (AsmKernelDispatch.allocate P d).2.stores = d.stores ∧
    (AsmKernelDispatch.allocate P d).2.cout = d.cout ∧
    (AsmKernelDispatch.allocate P d).2.invoked = d.invoked ∧
    ∃ l, (AsmKernelDispatch.allocate P d).2.calls = d.calls ++ l := by
  unfold AsmKernelDispatch.allocate
  have h1 := AllocateBuffer_untouched P AsmKernelDispatch.sizeC d
  rcases hc : Dispatch.AllocateBuffer P AsmKernelDispatch.sizeC d with ⟨(c | f), d1⟩
  · rw [hc] at h1
    obtain ⟨a1, a2, a3, a4, a5, a6, a7, _, _, _, l1, hl1⟩ := h1
    dsimp only at a1 a2 a3 a4 a5 a6 a7 hl1 ⊢
    have h2 := AllocateBuffer_untouched P AsmKernelDispatch.sizeA { d1 with c := c }
    rcases ha : Dispatch.AllocateBuffer P AsmKernelDispatch.sizeA { d1 with c := c }
      with ⟨(a | f), d2⟩
    · rw [ha] at h2
      obtain ⟨b1, b2, b3, b4, b5, b6, b7, _, _, _, l2, hl2⟩ := h2
      dsimp only at b1 b2 b3 b4 b5 b6 b7 hl2 ⊢
      have h3 := AllocateBuffer_untouched P AsmKernelDispatch.sizeB { d2 with a := a }
      rcases hb : Dispatch.AllocateBuffer P AsmKernelDispatch.sizeB { d2 with a := a }
        with ⟨(b | f), d3⟩
      · rw [hb] at h3
        obtain ⟨c1, c2, c3, c4, c5, c6, c7, _, _, _, l3, hl3⟩ := h3
        dsimp only at c1 c2 c3 c4 c5 c6 c7 hl3 ⊢
        exact ⟨c1.trans (b1.trans a1), c2.trans (b2.trans a2), c3.trans (b3.trans a3),
          c4.trans (b4.trans a4), c5.trans (b5.trans a5), c6.trans (b6.trans a6),
          c7.trans (b7.trans a7), l1 ++ l2 ++ l3,
          by rw [hl3, hl2, hl1, List.append_assoc, List.append_assoc, List.append_assoc]⟩
      · rw [hb] at h3
        obtain ⟨c1, c2, c3, c4, c5, c6, c7, _, _, _, l3, hl3⟩ := h3
        dsimp only at c1 c2 c3 c4 c5 c6 c7 hl3 ⊢
        exact ⟨c1.trans (b1.trans a1), c2.trans (b2.trans a2), c3.trans (b3.trans a3),
          c4.trans (b4.trans a4), c5.trans (b5.trans a5), c6.trans (b6.trans a6),
          c7.trans (b7.trans a7), l1 ++ l2 ++ l3,
          by rw [hl3, hl2, hl1, List.append_assoc, List.append_assoc, List.append_assoc]⟩
    · rw [ha] at h2
      obtain ⟨b1, b2, b3, b4, b5, b6, b7, _, _, _, l2, hl2⟩ := h2
      dsimp only at b1 b2 b3 b4 b5 b6 b7 hl2 ⊢
      exact ⟨b1.trans a1, b2.trans a2, b3.trans a3, b4.trans a4, b5.trans a5, b6.trans a6,
        b7.trans a7, l1 ++ l2, by rw [hl2, hl1, List.append_assoc]⟩
  · rw [hc] at h1
    obtain ⟨a1, a2, a3, a4, a5, a6, a7, _, _, _, l1, hl1⟩ := h1
    exact ⟨a1, a2, a3, a4, a5, a6, a7, l1, hl1⟩

/-- The loops of `Setup` return only if none of the three pointers is null; they change
memory only. -/
theorem fill_ret (F : FloatModel) (d d2 : Dispatch)
    (h : AsmKernelDispatch.fill F d = (.ret (), d2)) :
    ∃ c a b m, d.c = some c ∧ d.a = some a ∧ d.b = some b ∧ d2 = { d with mem := m } := by
  unfold AsmKernelDispatch.fill at h
  cases hc : d.c with
  | none => rw [hc] at h; exact absurd (congrArg Prod.fst h) (by simp)
  | some c =>
    cases ha : d.a with
    | none => rw [hc, ha] at h; exact absurd (congrArg Prod.fst h) (by simp)
    | some a =>
      cases hb : d.b with
      | none => rw [hc, ha, hb] at h; exact absurd (congrArg Prod.fst h) (by simp)
      | some b =>
        rw [hc, ha, hb] at h
        exact ⟨c, a, b, _, rfl, rfl, rfl, (congrArg Prod.snd h).symm⟩

theorem kernargs_pow_two (F : FloatModel) (c a b : Buffer) :
    ∀ call ∈ AsmKernelDispatch.kernargs F c a b,
      ∃ k, call.2.2 = 2 ^ k ∧ call.2.2 < SIZE_MOD := by
  intro call hcall
  simp only [AsmKernelDispatch.kernargs, List.mem_cons, List.mem_singleton, List.not_mem_nil,
    or_false] at hcall
  rcases hcall with h | h | h | h | h | h | h | h | h | h | h | h | h | h <;> subst h <;>
    first
      | exact ⟨3, rfl, by simp [SIZE_MOD]⟩
      | exact ⟨2, rfl, by simp [SIZE_MOD]⟩

theorem kernargs_noWrap (F : FloatModel) (c a b : Buffer) :
    NoWrap 0 (AsmKernelDispatch.kernargs F c a b) := by
  simp [NoWrap, AsmKernelDispatch.kernargs, roundUp, SIZE_MOD]

theorem kernargs_packedEnd (F : FloatModel) (c a b : Buffer) :
    packedEnd 0 (AsmKernelDispatch.kernargs F c a b) = 68 := by
  simp [packedEnd, AsmKernelDispatch.kernargs, roundUp]

theorem kernargs_packedWrites (F : FloatModel) (c a b : Buffer) (base : Nat) :
    packedWrites base 0 (AsmKernelDispatch.kernargs F c a b) =
      [(base + 0, 8), (base + 8, 8), (base + 16, 8), (base + 24, 4), (base + 28, 4),
        (base + 32, 4), (base + 36, 4), (base + 40, 4), (base + 44, 4), (base + 48, 4),
        (base + 52, 4), (base + 56, 4), (base + 60, 4), (base + 64, 4)] := by
  simp [packedWrites, AsmKernelDispatch.kernargs, roundUp]

/-- C15. Whenever `AsmKernelDispatch::Setup` returns true: it has asked for an argument
region of 68 = 3*8 + 11*4 bytes, and its fourteen `Kernarg` calls, starting from cursor 0,
have copied the local addresses of `c`, `a`, `b` (8 bytes each) to offsets 0, 8, 16 of the
region and the eleven 4-byte values `alpha`, `beta`, `offsetC`, `offsetA`, `offsetB`,
`strideCJ`, `strideAK`, `strideBK`, `size0I`, `size1J`, `sizeK` to offsets 24, 28, ..., 64;
each value is found at its place afterwards, every copy lies inside the 68 bytes, and the
cursor is left at 68. -/
theorem Setup_packs_fourteen_arguments (P : Platform) (F : FloatModel) (d s : Dispatch)
    (h : AsmKernelDispatch.Setup P F d = (.ret true, s)) :
    ∃ c a b, s.c = some c ∧ s.a = some a ∧ s.b = some b ∧
      (∃ rest, s.calls = d.calls ++ HsaCall.memory_allocate d.kernarg_region 68 :: rest) ∧
      s.aql.kernarg_address = s.kernarg ∧
      s.memcpys = d.memcpys ++
        [(s.kernarg + 0, 8), (s.kernarg + 8, 8), (s.kernarg + 16, 8), (s.kernarg + 24, 4),
          (s.kernarg + 28, 4), (s.kernarg + 32, 4), (s.kernarg + 36, 4), (s.kernarg + 40, 4),
          (s.kernarg + 44, 4), (s.kernarg + 48, 4), (s.kernarg + 52, 4), (s.kernarg + 56, 4),
          (s.kernarg + 60, 4), (s.kernarg + 64, 4)] ∧
      List.Forall₂ (fun call w => ∀ i, i < call.2.1 → s.mem (w.1 + i) = call.1 i)
        (AsmKernelDispatch.kernargs F c a b)
        [(s.kernarg + 0, 8), (s.kernarg + 8, 8), (s.kernarg + 16, 8), (s.kernarg + 24, 4),
          (s.kernarg + 28, 4), (s.kernarg + 32, 4), (s.kernarg + 36, 4), (s.kernarg + 40, 4),
          (s.kernarg + 44, 4), (s.kernarg + 48, 4), (s.kernarg + 52, 4), (s.kernarg + 56, 4),
          (s.kernarg + 60, 4), (s.kernarg + 64, 4)] ∧
      (∀ i, i < 8 → s.mem (s.kernarg + 0 + i) = leBytes c.LocalPtr i) ∧
      (∀ i, i < 8 → s.mem (s.kernarg + 8 + i) = leBytes a.LocalPtr i) ∧
      (∀ i, i < 8 → s.mem (s.kernarg + 16 + i) = leBytes b.LocalPtr i) ∧
      (∀ w ∈ s.memcpys.drop d.memcpys.length,
        s.kernarg ≤ w.1 ∧ w.1 + w.2 ≤ s.kernarg + 68) ∧
      s.kernarg_offset = 68 := by
  unfold AsmKernelDispatch.Setup at h
  rcases hk : Dispatch.AllocateKernarg P (3 * 8 + 11 * 4 + 0) d with ⟨(_ | _), d0⟩
  · rw [hk] at h
    exact absurd (congrArg Prod.fst h) (by simp)
  rw [hk] at h
  dsimp only at h
  obtain ⟨k0, k1, _, _, _, k5, k6⟩ := AllocateKernarg_ret_true P _ d d0 hk
  have hal := allocate_frame P d0
  rcases ha : AsmKernelDispatch.allocate P d0 with ⟨(_ | f), d1⟩
  swap
  · rw [ha] at h
    exact absurd (congrArg Prod.fst h) (by simp)
  rw [ha] at h hal
  dsimp only at h hal
  obtain ⟨a1, a2, a3, a4, _, _, _, la, hla⟩ := hal
  rcases hf : AsmKernelDispatch.fill F d1 with ⟨(_ | f), d2⟩
  swap
  · rw [hf] at h
    exact absurd (congrArg Prod.fst h) (by simp)
  rw [hf] at h
  dsimp only at h
  obtain ⟨c, a, b, m, hc, hA, hb, hd2⟩ := fill_ret F d1 d2 hf
  have hc1 := copyToLogged_untouched P d2.c d2
  rcases e1 : AsmKernelDispatch.copyToLogged P d2.c d2 with ⟨(_ | f), d3⟩
  swap
  · rw [e1] at h
    exact absurd (congrArg Prod.fst h) (by simp)
  rw [e1] at h hc1
  dsimp only at h hc1
  have hc2 := copyToLogged_untouched P d3.a d3
  rcases e2 : AsmKernelDispatch.copyToLogged P d3.a d3 with ⟨(_ | f), d4⟩
  swap
  · rw [e2] at h
    exact absurd (congrArg Prod.fst h) (by simp)
  rw [e2] at h hc2
  dsimp only at h hc2
  have hc3 := copyToLogged_untouched P d4.b d4
  rcases e3 : AsmKernelDispatch.copyToLogged P d4.b d4 with ⟨(_ | f), d5⟩
  swap
  · rw [e3] at h
    exact absurd (congrArg Prod.fst h) (by simp)
  rw [e3] at h hc3
  dsimp only at h hc3
  obtain ⟨u1, u2, u3, u4, _, _, _, u8, u9, u10, lu, hlu⟩ := (hc1.trans hc2).trans hc3
  have h5c : d5.c = some c := by rw [u8, hd2]; exact hc
  have h5a : d5.a = some a := by rw [u9, hd2]; exact hA
  have h5b : d5.b = some b := by rw [u10, hd2]; exact hb
  have h5o : d5.kernarg_offset = 0 := by rw [u2, hd2]; exact a2.trans k0
  have h5m : d5.memcpys = d.memcpys := by rw [u3, hd2]; exact a3.trans k1
  have h5q : d5.aql.kernarg_address = d5.kernarg := by
    rw [u4, u1, hd2]
    show d1.aql.kernarg_address = d1.kernarg
    rw [a4, a1]
    exact k6
  have h5l : ∃ rest,
      d5.calls = d.calls ++ HsaCall.memory_allocate d.kernarg_region 68 :: rest := by
    refine ⟨la ++ lu, ?_⟩
    rw [hlu, hd2]
    show d1.calls ++ lu = _
    rw [hla, k5]
    simp
  obtain ⟨m', hrun, hall, _⟩ := KernargRawSeq_exact (AsmKernelDispatch.kernargs F c a b) d5
    (kernargs_pow_two F c a b) (by rw [h5o]; exact kernargs_noWrap F c a b)
  rw [h5o, kernargs_packedEnd, kernargs_packedWrites] at hrun
  rw [h5o, kernargs_packedWrites] at hall
  have hp : AsmKernelDispatch.pack F d5 = Dispatch.KernargRawSeq
      (AsmKernelDispatch.kernargs F c a b) d5 := by
    unfold AsmKernelDispatch.pack
    rw [h5c, h5a, h5b]
  rw [hp, hrun] at h
  dsimp only at h
  have hs := (congrArg Prod.snd h).symm
  dsimp only [Dispatch.SetWorkgroupSize, Dispatch.SetGridSize] at hs
  subst hs
  refine ⟨c, a, b, h5c, h5a, h5b, h5l, h5q, ?_, hall, ?_, ?_, ?_, ?_, rfl⟩
  · show d5.memcpys ++ _ = _
    rw [h5m]
  · intro i hi
    have := hall
    simp only [AsmKernelDispatch.kernargs, List.forall₂_cons] at this
    exact this.1 i hi
  · intro i hi
    have := hall
    simp only [AsmKernelDispatch.kernargs, List.forall₂_cons] at this
    exact this.2.1 i hi
  · intro i hi
    have := hall
    simp only [AsmKernelDispatch.kernargs, List.forall₂_cons] at this
    exact this.2.2.1 i hi
  · intro w hw
    change w ∈ List.drop d.memcpys.length (d5.memcpys ++ _) at hw
    rw [h5m, List.drop_left] at hw
    simp only [List.mem_cons, List.mem_singleton, List.not_mem_nil, or_false] at hw
    show d5.kernarg ≤ w.1 ∧ w.1 + w.2 ≤ d5.kernarg + 68
    rcases hw with h | h | h | h | h | h | h | h | h | h | h | h | h | h <;> subst h <;>
      constructor <;> dsimp only <;> omega

/-- Witness for C15: discovery left a local region, every runtime call succeeds. -/
theorem Setup_packs_fourteen_arguments_witness :
    (AsmKernelDispatch.Setup Platform.succeeding FloatModel.sample (sampleInit {}).2).1
      = .ret true ∧
    (AsmKernelDispatch.Setup Platform.succeeding FloatModel.sample
      (sampleInit {}).2).2.kernarg_offset = 68 := by
  have h1 : (AsmKernelDispatch.Setup Platform.succeeding FloatModel.sample
      (sampleInit {}).2).1 = .ret true := by decide!
  obtain ⟨_, _, _, _, _, _, _, _, _, _, _, _, _, _, hoff⟩ :=
    Setup_packs_fourteen_arguments Platform.succeeding FloatModel.sample (sampleInit {}).2 _
      (Prod.ext h1 rfl)
  exact ⟨h1, hoff⟩

/-- C16 fails on every run that reaches `RunDispatch`: that phase writes two lines to
`std::cout` itself. In a run of the `AsmKernelDispatch` program in which every runtime call
succeeds, the log stays empty and the result is true, so only the line `Success` is due;
standard output nevertheless holds the `wg=` and `gr=` lines, written by `RunDispatch`
before `Wait` and `Verify` were invoked. -/
theorem RunDispatch_writes_to_cout_mid_run :
    (∀ (K : PacketEncoding) (d : Dispatch),
      (Dispatch.RunDispatch K d).2.cout = d.cout ++
        ("wg=" ++ toString d.aql.workgroup_size_x ++ ", " ++
          toString d.aql.workgroup_size_y ++ ", " ++ toString d.aql.workgroup_size_z ++ "\n")
        ++ ("gr=" ++ toString d.aql.grid_size_x ++ ", " ++
          toString d.aql.grid_size_y ++ ", " ++ toString d.aql.grid_size_z ++ "\n")) ∧
    (Dispatch.Run (Dispatch.lifecycle Platform.succeeding PacketEncoding.hsa sampleInit
      sampleSetupCodeObject (AsmKernelDispatch.Setup Platform.succeeding FloatModel.sample)
      sampleWait Dispatch.Verify) {}).1 = .ret true ∧
    (Dispatch.Run (Dispatch.lifecycle Platform.succeeding PacketEncoding.hsa sampleInit
      sampleSetupCodeObject (AsmKernelDispatch.Setup Platform.succeeding FloatModel.sample)
      sampleWait Dispatch.Verify) {}).2.output = "" ∧
    (Dispatch.beforeRunDispatch (Dispatch.lifecycle Platform.succeeding PacketEncoding.hsa
      sampleInit sampleSetupCodeObject
      (AsmKernelDispatch.Setup Platform.succeeding FloatModel.sample)
      sampleWait Dispatch.Verify) {}).2.cout = "" ∧
    (Dispatch.RunDispatch PacketEncoding.hsa
      (Dispatch.beforeRunDispatch (Dispatch.lifecycle Platform.succeeding PacketEncoding.hsa
        sampleInit sampleSetupCodeObject
        (AsmKernelDispatch.Setup Platform.succeeding FloatModel.sample)
        sampleWait Dispatch.Verify) {}).2).2.cout = "wg=16, 16, 1\ngr=16, 16, 1\n" ∧
    (Dispatch.Run (Dispatch.lifecycle Platform.succeeding PacketEncoding.hsa sampleInit
      sampleSetupCodeObject (AsmKernelDispatch.Setup Platform.succeeding FloatModel.sample)
      sampleWait Dispatch.Verify) {}).2.cout = "wg=16, 16, 1\ngr=16, 16, 1\nSuccess\n" := by
  refine ⟨fun K d => rfl, by decide!, by decide!, by decide!, by decide!, by decide!⟩

/-- C17 fails when an `AllocateBuffer` of `Setup` returns null: on a runtime that cannot
allocate the 65536 bytes of buffer `c`, `AllocateBuffer` returns null and `Setup` goes on to
store through that pointer, so it neither returns false nor returns at all; `Run` ends in
`Setup` without returning, and without printing the log or `Failed`. No packet has been
published: `RunDispatch` is not invoked and no header or doorbell store is made. -/
theorem Setup_dereferences_null_buffer :
    (Dispatch.AllocateBuffer Platform.smallMemory AsmKernelDispatch.sizeC
      (Dispatch.AllocateKernarg Platform.smallMemory 68 (sampleInit {}).2).2).1 = .ret none ∧
    (AsmKernelDispatch.Setup Platform.smallMemory FloatModel.sample (sampleInit {}).2).1
      = .abort .nullDereference ∧
    (Dispatch.Run (Dispatch.lifecycle Platform.smallMemory PacketEncoding.hsa sampleInit
      sampleSetupCodeObject (AsmKernelDispatch.Setup Platform.smallMemory FloatModel.sample)
      sampleWait (AsmKernelDispatch.Verify Platform.smallMemory FloatModel.sample)) {}).1
      = .abort .nullDereference ∧
    (Dispatch.Run (Dispatch.lifecycle Platform.smallMemory PacketEncoding.hsa sampleInit
      sampleSetupCodeObject (AsmKernelDispatch.Setup Platform.smallMemory FloatModel.sample)
      sampleWait (AsmKernelDispatch.Verify Platform.smallMemory FloatModel.sample)) {}).2.invoked
      = [(.Init, .ret true), (.InitDispatch, .ret true), (.SetupExecutable, .ret true),
        (.Setup, .abort .nullDereference)] ∧
    (Dispatch.Run (Dispatch.lifecycle Platform.smallMemory PacketEncoding.hsa sampleInit
      sampleSetupCodeObject (AsmKernelDispatch.Setup Platform.smallMemory FloatModel.sample)
      sampleWait (AsmKernelDispatch.Verify Platform.smallMemory FloatModel.sample)) {}).2.stores
      = [] ∧
    (Dispatch.Run (Dispatch.lifecycle Platform.smallMemory PacketEncoding.hsa sampleInit
      sampleSetupCodeObject (AsmKernelDispatch.Setup Platform.smallMemory FloatModel.sample)
      sampleWait (AsmKernelDispatch.Verify Platform.smallMemory FloatModel.sample)) {}).2.cout
      = "" := by
  refine ⟨by decide!, by decide!, by decide!, by decide!, by decide!, by decide!⟩

/-- A loop that clears a flag whenever a check fails ends with the flag set exactly when it
was set before and every check held. -/
theorem foldl_flag {ι : Type} (step : ι → Bool × String → Bool × String) (ok : ι → Prop)
    (hstep : ∀ i acc, (step i acc).1 = true ↔ (acc.1 = true ∧ ok i)) (l : List ι) :
    ∀ acc, (l.foldl (fun acc i => step i acc) acc).1 = true ↔
      (acc.1 = true ∧ ∀ i ∈ l, ok i) := by
  induction l with
  | nil => intro acc; simp
  | cons x rest ih =>
    intro acc
    rw [List.foldl_cons, ih, hstep]
    simp only [List.mem_cons, forall_eq_or_imp]
    tauto

theorem verifyStep_flag (F : FloatModel) (c : Buffer) (mem : Nat → Nat) (d1 d0 : Nat)
    (acc : Bool × String) :
    (AsmKernelDispatch.verifyStep F c mem d1 d0 acc).1 = true ↔
      (acc.1 = true ∧
        F.equal (c.Data ((d1 * AsmKernelDispatch.strideCJ + d0) % 2 ^ 32) mem)
          ((d1 * AsmKernelDispatch.strideCJ + d0) % 2 ^ 32) = true) := by
  unfold AsmKernelDispatch.verifyStep
  dsimp only
  cases F.equal (c.Data ((d1 * AsmKernelDispatch.strideCJ + d0) % 2 ^ 32) mem)
    ((d1 * AsmKernelDispatch.strideCJ + d0) % 2 ^ 32) <;> simp

/-- C18. With `M = N = K = 128`: every value below `M*N` is the index `d1*strideCJ + d0` of
exactly one pair `d1 < size1J`, `d0 < size0I`; every such index is below `numElementsC`, and
its four bytes lie inside the `sizeC` bytes of buffer `c`. With `c` not null, `Verify`
returns, and it returns true exactly when `CopyFrom(c)` returned true and the comparison
held at the index of every pair. -/
theorem Verify_visits_every_index_once :
    (∀ v, v < AsmKernelDispatch.M * AsmKernelDispatch.N →
      ∃! p : Nat × Nat, p.1 < AsmKernelDispatch.size1J ∧ p.2 < AsmKernelDispatch.size0I ∧
        (p.1 * AsmKernelDispatch.strideCJ + p.2) % 2 ^ 32 = v) ∧
    (∀ d1 d0, d1 < AsmKernelDispatch.size1J → d0 < AsmKernelDispatch.size0I →
      (d1 * AsmKernelDispatch.strideCJ + d0) % 2 ^ 32 < AsmKernelDispatch.numElementsC ∧
      (d1 * AsmKernelDispatch.strideCJ + d0) % 2 ^ 32 <
        AsmKernelDispatch.M * AsmKernelDispatch.N ∧
      4 * ((d1 * AsmKernelDispatch.strideCJ + d0) % 2 ^ 32) + 4 ≤ AsmKernelDispatch.sizeC) ∧
    (∀ (P : Platform) (F : FloatModel) (d : Dispatch) (c : Buffer), d.c = some c →
      ((AsmKernelDispatch.Verify P F d).1 = .ret true ∨
        (AsmKernelDispatch.Verify P F d).1 = .ret false) ∧
      ((AsmKernelDispatch.Verify P F d).1 = .ret true ↔
        ((Dispatch.CopyFrom P c d).1 = true ∧
          ∀ d1 d0, d1 < AsmKernelDispatch.size1J → d0 < AsmKernelDispatch.size0I →
            F.equal
              (c.Data ((d1 * AsmKernelDispatch.strideCJ + d0) % 2 ^ 32)
                (Dispatch.CopyFrom P c d).2.mem)
              ((d1 * AsmKernelDispatch.strideCJ + d0) % 2 ^ 32) = true))) := by
  refine ⟨?_, ?_, ?_⟩
  · intro v hv
    simp only [AsmKernelDispatch.M, AsmKernelDispatch.N] at hv
    refine ⟨(v / 128, v % 128), ?_, ?_⟩
    · simp only [AsmKernelDispatch.size1J, AsmKernelDispatch.size0I,
        AsmKernelDispatch.strideCJ, AsmKernelDispatch.M, AsmKernelDispatch.N]
      omega
    · rintro ⟨p1, p2⟩ hp
      simp only [AsmKernelDispatch.size1J, AsmKernelDispatch.size0I,
        AsmKernelDispatch.strideCJ, AsmKernelDispatch.M, AsmKernelDispatch.N] at hp
      have h1 : p1 = v / 128 := by omega
      have h2 : p2 = v % 128 := by omega
      rw [h1, h2]
  · intro d1 d0 h1 h0
    simp only [AsmKernelDispatch.size1J, AsmKernelDispatch.size0I, AsmKernelDispatch.strideCJ,
      AsmKernelDispatch.numElementsC, AsmKernelDispatch.sizeC, AsmKernelDispatch.M,
      AsmKernelDispatch.N] at h1 h0 ⊢
    omega
  · intro P F d c hc
    unfold AsmKernelDispatch.Verify
    rw [hc]
    dsimp only
    rcases hcf : Dispatch.CopyFrom P c d with ⟨(_ | _), d1⟩
    · simp
    · dsimp only
      constructor
      · cases ((List.range AsmKernelDispatch.size1J).foldl
          (fun acc i1 => (List.range AsmKernelDispatch.size0I).foldl
            (fun acc i0 => AsmKernelDispatch.verifyStep F c d1.mem i1 i0 acc) acc)
          (true, d1.output)).1 <;> simp
      · have key := foldl_flag
          (fun i1 acc => (List.range AsmKernelDispatch.size0I).foldl
            (fun acc i0 => AsmKernelDispatch.verifyStep F c d1.mem i1 i0 acc) acc)
          (fun i1 => ∀ i0 ∈ List.range AsmKernelDispatch.size0I,
            F.equal (c.Data ((i1 * AsmKernelDispatch.strideCJ + i0) % 2 ^ 32) d1.mem)
              ((i1 * AsmKernelDispatch.strideCJ + i0) % 2 ^ 32) = true)
          (fun i1 acc => foldl_flag
            (fun i0 acc => AsmKernelDispatch.verifyStep F c d1.mem i1 i0 acc)
            _ (fun i0 acc => verifyStep_flag F c d1.mem i1 i0 acc)
            (List.range AsmKernelDispatch.size0I) acc)
          (List.range AsmKernelDispatch.size1J) (true, d1.output)
        simp only [Outcome.ret.injEq, true_and]
        rw [key]
        simp only [List.mem_range, true_and]
        constructor
        · intro h i1 i0 h1 h0
          exact h i1 h1 i0 h0
        · intro h i1 h1 i0 h0
          exact h i1 i0 h1 h0

end amd.dispatch

/-! ## TensileLib: theorems -/

namespace Tensile

/-- C19. `operator<` on `TensileDimension` is a strict total order modulo `operator==`: it is
irreflexive and transitive, `l < r` holds exactly when `l.stride > r.stride`, or the strides
are equal and `l.size > r.size`, and for all `l`, `r` exactly one of `l < r`, `r < l`,
`l == r` holds. -/
theorem TensileDimension_lt_strict_total_order :
    (∀ l : TensileDimension, l.lt l = false) ∧
    (∀ l m r : TensileDimension, l.lt m = true → m.lt r = true → l.lt r = true) ∧
    (∀ l r : TensileDimension, l.lt r = true ↔
      (l.stride > r.stride ∨ (l.stride = r.stride ∧ l.size > r.size))) ∧
    (∀ l r : TensileDimension,
      (l.lt r = true ∧ r.lt l = false ∧ l.eq r = false) ∨
      (l.lt r = false ∧ r.lt l = true ∧ l.eq r = false) ∨
      (l.lt r = false ∧ r.lt l = false ∧ l.eq r = true)) := by
  have key : ∀ l r : TensileDimension, l.lt r = true ↔
      (l.stride > r.stride ∨ (l.stride = r.stride ∧ l.size > r.size)) := by
    intro l r
    unfold TensileDimension.lt
    split_ifs <;> simp <;> omega
  have keyf : ∀ l r : TensileDimension, l.lt r = false ↔
      ¬ (l.stride > r.stride ∨ (l.stride = r.stride ∧ l.size > r.size)) := by
    intro l r
    rw [← key, Bool.not_eq_true]
  have keye : ∀ l r : TensileDimension, l.eq r = true ↔
      (l.size = r.size ∧ l.stride = r.stride) := by
    intro l r
    simp [TensileDimension.eq]
  have keyne : ∀ l r : TensileDimension, l.eq r = false ↔
      ¬ (l.size = r.size ∧ l.stride = r.stride) := by
    intro l r
    rw [← keye, Bool.not_eq_true]
  refine ⟨?_, ?_, key, ?_⟩
  · intro l
    rw [keyf]
    omega
  · intro l m r h1 h2
    rw [key] at h1 h2 ⊢
    omega
  · intro l r
    simp only [key, keyf, keye, keyne]
    omega

end Tensile
